import Mathlib

/-!
# NVGSurface: damage tracking, framebuffer reconciliation and staggered resize

A shallow embedding of `Source/NVGSurface.cpp`.  The surface is a record of the
member variables the functions read and write; every member function becomes a
function on that record.  Calls into the GPU layer (nanovg, the GL context) and
into the timer leave no trace in the record, so the functions that issue them
also return the list of calls in program order.

Conventions.

* `int` arithmetic is carried out on `Int`.  Signed overflow is undefined in
  C++, so the model describes the runs in which no coordinate sum leaves the
  `int` range.
* The `float` pixel scale is idealised as an exact ratio of two naturals;
  `getWidth() * pixelScale` is the exact product followed by the truncating
  conversion to `int`.
* `juce::Rectangle<int>` and `juce::Component::setBounds` are library code; the
  operations below follow `juce_Rectangle.h` and `juce_Component.cpp`.
* What the hardware and the host decide during one tick (the pixel scale, the
  outcome of `makeActive`, of context and framebuffer creation) is the `Env`
  argument of the tick.
* A read through a null framebuffer pointer (`mainFBO->image`,
  `invalidFBO->image`) is undefined behaviour; the model records it as the call
  `nullDereference`, after which the tick issues no call and changes no member.
* Inside `render`, the welcome-panel bookkeeping and the time-budgeted
  `Canvas::updateFramebuffers` slot act on the editor and on canvases, not on
  the surface; they are outside the model.
-/

namespace NVGSurface

/-- Integer rectangle as in `juce::Rectangle<int>`: a position and a size.  The
four-argument constructor stores its arguments unchanged. -/
structure Rectangle where
  x : Int
  y : Int
  w : Int
  h : Int
deriving DecidableEq, Repr

namespace Rectangle

/-- Source function `Rectangle::isEmpty`: `w <= 0 || h <= 0`. -/
def isEmpty (r : Rectangle) : Bool := decide (r.w ≤ 0) || decide (r.h ≤ 0)

/-- Source function `Rectangle::getRight`: `pos.x + w`. -/
def getRight (r : Rectangle) : Int := r.x + r.w

/-- Source function `Rectangle::getBottom`: `pos.y + h`. -/
def getBottom (r : Rectangle) : Int := r.y + r.h

/-- Source function `Rectangle::getUnion`: an empty argument is ignored, an empty receiver is
replaced, otherwise the smallest rectangle around both. -/
def getUnion (r other : Rectangle) : Rectangle :=
  if other.isEmpty then r
  else if r.isEmpty then other
  else
    let newX := min r.x other.x
    let newY := min r.y other.y
    ⟨newX, newY, max (r.x + r.w) (other.x + other.w) - newX,
      max (r.y + r.h) (other.y + other.h) - newY⟩

/-- Source function `Rectangle::getIntersection`: the overlap, or the default rectangle when
there is none. -/
def getIntersection (r other : Rectangle) : Rectangle :=
  let nx := max r.x other.x
  let ny := max r.y other.y
  let nw := min (r.x + r.w) (other.x + other.w) - nx
  if 0 ≤ nw then
    let nh := min (r.y + r.h) (other.y + other.h) - ny
    if 0 ≤ nh then ⟨nx, ny, nw, nh⟩ else ⟨0, 0, 0, 0⟩
  else ⟨0, 0, 0, 0⟩

/-- Source function `Rectangle::expanded (delta)`: grown by `delta` on every side, the size
clamped at zero. -/
def expanded (r : Rectangle) (delta : Int) : Rectangle :=
  ⟨r.x - delta, r.y - delta, max 0 (r.w + delta * 2), max 0 (r.h + delta * 2)⟩

/-- Source function `Rectangle::withWidth`: same position and height, width clamped at zero. -/
def withWidth (r : Rectangle) (newWidth : Int) : Rectangle :=
  ⟨r.x, r.y, max 0 newWidth, r.h⟩

/-- Source function `Rectangle::withHeight`: same position and width, height clamped at zero. -/
def withHeight (r : Rectangle) (newHeight : Int) : Rectangle :=
  ⟨r.x, r.y, r.w, max 0 newHeight⟩

/-- Source function `Rectangle::contains (Rectangle)`: the argument lies inside the receiver. -/
def contains (r other : Rectangle) : Bool :=
  decide (r.x ≤ other.x) && decide (r.y ≤ other.y)
    && decide (other.x + other.w ≤ r.x + r.w) && decide (other.y + other.h ≤ r.y + r.h)

/-- Source function `Rectangle::contains (Point)`, on the coordinates of the
point: `x >= pos.x && y >= pos.y && x < pos.x + w && y < pos.y + h`. -/
def containsPoint (r : Rectangle) (px py : Int) : Bool :=
  decide (r.x ≤ px) && decide (r.y ≤ py) && decide (px < r.x + r.w)
    && decide (py < r.y + r.h)

end Rectangle

/-- A pixel scale (device pixels per logical pixel): the ratio `num / den`. -/
structure PixelScale where
  num : Nat
  den : Nat
deriving DecidableEq, Repr

/-- The two rendering backends selected at build time
(`NANOVG_GL_IMPLEMENTATION` / `NANOVG_METAL_IMPLEMENTATION`). -/
inductive Backend where
  | gl
  | metal
deriving DecidableEq, Repr

/-- The two off-screen render targets of the surface. -/
inductive Target where
  | mainFBO
  | invalidFBO
deriving DecidableEq, Repr

/-- The font faces registered by `initialise`. -/
inductive Font where
  | inter
  | interRegular
  | interBold
  | interSemiBold
  | interTabular
  | iconFont
deriving DecidableEq, Repr

/-- A live framebuffer handle together with the size it was created at. -/
structure Framebuffer where
  width : Int
  height : Int
deriving DecidableEq, Repr

/-- Calls issued to the GPU layer and to the timer, in program order.
`nullDereference t` is the read `t->image` through a null framebuffer pointer:
nothing of the program runs after it. -/
inductive Op where
  | createContext
  | createFont (f : Font)
  | deleteFramebuffer (t : Target)
  | createFramebuffer (t : Target) (width height : Int)
  | bindFramebuffer (t : Option Target)
  | viewport (width height : Int)
  | clear
  | beginFrame (width height : Int) (pixelScale : PixelScale)
  | scissor (r : Rectangle)
  | renderArea (r : Rectangle)
  | fillImage (r : Rectangle) (image : Target)
  | renderSplitView
  | endFrame
  | swapBuffers
  | startTimerHz (hz : Nat)
  | stopTimer
  | nullDereference (t : Target)
deriving DecidableEq, Repr

/-- The call is a read through a null framebuffer pointer. -/
def Op.isNullDereference : Op → Bool
  | Op.nullDereference _ => true
  | _ => false

/-- The call list ends in a read through a null pointer: the program stopped there. -/
def crashed (ops : List Op) : Bool := ops.any Op.isNullDereference

/-- What the host and the hardware decide during one tick. -/
structure Env where
  /-- Value returned by `getRenderScale()` during the tick -/
  pixelScale : PixelScale
  /-- Result of `glContext->makeActive()` at the invalidated-region pass -/
  activate1 : Bool
  /-- Result of `glContext->makeActive()` at the present pass -/
  activate2 : Bool
  /-- Whether the native context or view is bound once `initialise` has run -/
  attachOk : Bool
  /-- Whether `nvgCreateContext` returns a non-null handle -/
  createContextOk : Bool
  /-- Whether `nvgCreateFramebuffer` returns a non-null handle for the main target -/
  mainFramebufferOk : Bool
  /-- Whether `nvgCreateFramebuffer` returns a non-null handle for the scratch target -/
  invalidFramebufferOk : Bool
  /-- Whether `editor->pluginMode` is set -/
  pluginMode : Bool
deriving DecidableEq, Repr

/-- The member variables of `NVGSurface` (and of its `Component` and `Timer`
bases) that the modelled functions read or write. -/
structure Surface where
  /-- Value of `Component::getBounds()` -/
  bounds : Rectangle
  /-- Value of `Component::isVisible()` -/
  visible : Bool
  /-- Value of `glContext->isAttached()`, respectively `getView() != nullptr` -/
  contextAttached : Bool
  /-- Whether `nvg != nullptr` -/
  nvg : Bool
  invalidArea : Rectangle
  needsBufferSwap : Bool
  fbWidth : Int
  fbHeight : Int
  mainFBO : Option Framebuffer
  invalidFBO : Option Framebuffer
  lastScaleFactor : PixelScale
  newBounds : Rectangle
  hresize : Bool
  resizing : Bool
  /-- Value of `Timer::isTimerRunning()` -/
  timerRunning : Bool
deriving DecidableEq, Repr

namespace Surface

/-- Source function `Component::getWidth`. -/
def getWidth (s : Surface) : Int := s.bounds.w

/-- Source function `Component::getHeight`. -/
def getHeight (s : Surface) : Int := s.bounds.h

/-- Source function `Component::getLocalBounds`: the bounds moved to the origin. -/
def getLocalBounds (s : Surface) : Rectangle := ⟨0, 0, s.bounds.w, s.bounds.h⟩

/-- Source function `Component::setBounds`: negative sizes are clamped to zero before the
bounds are stored. -/
def setBounds (r : Rectangle) (s : Surface) : Surface :=
  { s with bounds := ⟨r.x, r.y, max 0 r.w, max 0 r.h⟩ }

/-- Sizes held by a `Component` are never negative (`setBounds` clamps). -/
def WellFormed (s : Surface) : Prop := 0 ≤ s.bounds.w ∧ 0 ≤ s.bounds.h

instance (s : Surface) : Decidable s.WellFormed := by
  unfold WellFormed; infer_instance

end Surface

/-- The `int` conversion of `n * pixelScale` (truncation towards zero). -/
def scaled (n : Int) (pixelScale : PixelScale) : Int :=
  Int.tdiv (n * (pixelScale.num : Int)) (pixelScale.den : Int)

/-- Source function `NVGSurface::isAttached`. -/
def isAttached (s : Surface) : Bool := s.contextAttached && s.nvg

/-- Source function `NVGSurface::invalidateAll`. -/
def invalidateAll (s : Surface) : Surface :=
  { s with invalidArea := s.getLocalBounds }

/-- Source function `NVGSurface::invalidateArea`. -/
def invalidateArea (area : Rectangle) (s : Surface) : Surface :=
  { s with invalidArea := s.invalidArea.getUnion area }

/-- Source function `NVGSurface::triggerRepaint`. -/
def triggerRepaint (s : Surface) : Surface :=
  { s with needsBufferSwap := true }

/-- Source function `NVGSurface::makeContextActive`: Metal needs no activation and reports
`isAttached()`; GL reports what `glContext->makeActive()` returns. -/
def makeContextActive (b : Backend) (glResult : Bool) (s : Surface) : Bool :=
  match b with
  | Backend.metal => isAttached s
  | Backend.gl => glResult

/-- Source function `NVGSurface::initialise`: bind the context, create the nanovg handle, mark
everything invalid, register the fonts. -/
def initialise (env : Env) (s : Surface) : Surface × List Op :=
  (invalidateAll
      { s with visible := true, contextAttached := env.attachOk, nvg := env.createContextOk },
    [Op.createContext, Op.createFont Font.inter, Op.createFont Font.interRegular,
      Op.createFont Font.interBold, Op.createFont Font.interSemiBold,
      Op.createFont Font.interTabular, Op.createFont Font.iconFont])

/-- The guard of `updateBufferSize`:
`fbWidth != scaledWidth || fbHeight != scaledHeight || !mainFBO`. -/
def needsNewFramebuffers (env : Env) (s : Surface) : Bool :=
  decide (s.fbWidth ≠ scaled s.getWidth env.pixelScale)
    || decide (s.fbHeight ≠ scaled s.getHeight env.pixelScale)
    || s.mainFBO.isNone

/-- Source function `NVGSurface::updateBufferSize`. -/
def updateBufferSize (env : Env) (s : Surface) : Surface × List Op :=
  let scaledWidth := scaled s.getWidth env.pixelScale
  let scaledHeight := scaled s.getHeight env.pixelScale
  if needsNewFramebuffers env s then
    ({ s with
        mainFBO := if env.mainFramebufferOk then some ⟨scaledWidth, scaledHeight⟩ else none
        invalidFBO := if env.invalidFramebufferOk then some ⟨scaledWidth, scaledHeight⟩ else none
        fbWidth := scaledWidth
        fbHeight := scaledHeight
        invalidArea := s.getLocalBounds
        lastScaleFactor := env.pixelScale },
      (if s.invalidFBO.isSome then [Op.deleteFramebuffer Target.invalidFBO] else [])
        ++ (if s.mainFBO.isSome then [Op.deleteFramebuffer Target.mainFBO] else [])
        ++ [Op.createFramebuffer Target.mainFBO scaledWidth scaledHeight,
            Op.createFramebuffer Target.invalidFBO scaledWidth scaledHeight])
  else (s, [])

/-- Source function `NVGSurface::updateBounds`.  On GL the request is stored and one axis is
applied, chosen by `hresize`; on Metal the request is applied whole. -/
def updateBounds (b : Backend) (bounds : Rectangle) (s : Surface) : Surface :=
  match b with
  | Backend.gl =>
    let s1 := { s with newBounds := bounds }
    let s2 :=
      if s1.hresize then s1.setBounds (bounds.withHeight s1.getHeight)
      else s1.setBounds (bounds.withWidth s1.getWidth)
    { s2 with resizing := true }
  | Backend.metal => s.setBounds bounds

/-- Source function `NVGSurface::timerCallback` (GL only). -/
def timerCallback (s : Surface) : Surface :=
  let s1 := updateBounds Backend.gl s.newBounds s
  if s1.bounds = s1.newBounds then { s1 with timerRunning := false } else s1

/-- The invalidated-region pass of `render` (the first `if` after
`updateBufferSize`): draw the expanded invalid rectangle into the scratch
target, stamp it into the main target, set the swap flag, clear the region.
Binding takes a null pointer (the pass ends with `nvgBindFramebuffer(nullptr)`),
but the fill pattern reads `invalidFBO->image`: with `invalidFBO` null the pass
stops at that read, before the fill and before the two assignments. -/
def renderInvalidated (b : Backend) (env : Env) (s : Surface) : Surface × List Op :=
  if !s.invalidArea.isEmpty && makeContextActive b env.activate1 s then
    let invalidated := s.invalidArea.expanded 1
    if s.invalidFBO.isSome then
      ({ s with needsBufferSwap := true, invalidArea := ⟨0, 0, 0, 0⟩ },
        [Op.bindFramebuffer (some Target.invalidFBO),
          Op.viewport (scaled s.getWidth env.pixelScale) (scaled s.getHeight env.pixelScale),
          Op.clear,
          Op.beginFrame s.getWidth s.getHeight env.pixelScale,
          Op.scissor invalidated,
          Op.renderArea invalidated,
          Op.endFrame,
          Op.bindFramebuffer (some Target.mainFBO),
          Op.viewport (scaled s.getWidth env.pixelScale) (scaled s.getHeight env.pixelScale),
          Op.beginFrame s.getWidth s.getHeight env.pixelScale,
          Op.scissor invalidated,
          Op.fillImage invalidated Target.invalidFBO,
          Op.endFrame,
          Op.bindFramebuffer none])
    else
      (s,
        [Op.bindFramebuffer (some Target.invalidFBO),
          Op.viewport (scaled s.getWidth env.pixelScale) (scaled s.getHeight env.pixelScale),
          Op.clear,
          Op.beginFrame s.getWidth s.getHeight env.pixelScale,
          Op.scissor invalidated,
          Op.renderArea invalidated,
          Op.endFrame,
          Op.bindFramebuffer (some Target.mainFBO),
          Op.viewport (scaled s.getWidth env.pixelScale) (scaled s.getHeight env.pixelScale),
          Op.beginFrame s.getWidth s.getHeight env.pixelScale,
          Op.scissor invalidated,
          Op.nullDereference Target.invalidFBO])
  else (s, [])

/-- The resize bookkeeping that follows `swapBuffers` on GL: flip the axis
toggle if an application was in flight, and start the timer while the bounds
differ from the request. -/
def afterSwap (s : Surface) : Surface × List Op :=
  let s1 := if s.resizing then { s with hresize := !s.hresize, resizing := false } else s
  if s1.bounds ≠ s1.newBounds then ({ s1 with timerRunning := true }, [Op.startTimerHz 60])
  else (s1, [])

/-- The present pass of `render` (the second `if`): composite the main target
to the screen, draw the split-view chrome, swap, clear the flag.  The fill
pattern reads `mainFBO->image`: with `mainFBO` null the pass stops at that read,
before the fill, the swap and every assignment. -/
def renderPresent (b : Backend) (env : Env) (s : Surface) : Surface × List Op :=
  if s.needsBufferSwap && makeContextActive b env.activate2 s then
    if s.mainFBO.isSome then
      let frame : List Op :=
        [Op.viewport (scaled s.getWidth env.pixelScale) (scaled s.getHeight env.pixelScale),
          Op.beginFrame s.getWidth s.getHeight env.pixelScale,
          Op.scissor s.getLocalBounds,
          Op.fillImage s.getLocalBounds Target.mainFBO]
          ++ (if env.pluginMode then [] else [Op.renderSplitView])
          ++ [Op.endFrame]
      match b with
      | Backend.gl =>
        ({ (afterSwap s).1 with needsBufferSwap := false },
          frame ++ [Op.swapBuffers] ++ (afterSwap s).2)
      | Backend.metal => ({ s with needsBufferSwap := false }, frame)
    else
      (s,
        [Op.viewport (scaled s.getWidth env.pixelScale) (scaled s.getHeight env.pixelScale),
          Op.beginFrame s.getWidth s.getHeight env.pixelScale,
          Op.scissor s.getLocalBounds,
          Op.nullDereference Target.mainFBO])
  else (s, [])

/-- The first statement of `render`:
`if(!isAttached() && isVisible()) initialise();`. -/
def reinitialise (env : Env) (s : Surface) : Surface × List Op :=
  if !isAttached s && s.visible then initialise env s else (s, [])

/-- Source function `NVGSurface::render`: reinitialise if detached and visible, reconcile the
framebuffer size, then the two passes; the present pass is not reached when the
invalidated-region pass stopped at a null framebuffer. -/
def render (b : Backend) (env : Env) (s : Surface) : Surface × List Op :=
  let r1 := reinitialise env s
  let r2 := updateBufferSize env r1.1
  let r3 := renderInvalidated b env r2.1
  let r4 := if crashed r3.2 then (r3.1, []) else renderPresent b env r3.1
  (r4.1, r1.2 ++ r2.2 ++ r3.2 ++ r4.2)

/-! ## Runs of calls and the reference notions the properties are stated with -/

/-- A run of `invalidateArea` calls, one per rectangle, first to last. -/
def invalidateAreas (areas : List Rectangle) (s : Surface) : Surface :=
  areas.foldl (fun acc area => invalidateArea area acc) s

/-- Smallest rectangle around `r` and every rectangle of `rs`: least left and
top edge, greatest right and bottom edge. -/
def boundingBox (r : Rectangle) (rs : List Rectangle) : Rectangle :=
  let left := rs.foldl (fun m q => min m q.x) r.x
  let top := rs.foldl (fun m q => min m q.y) r.y
  let right := rs.foldl (fun m q => max m q.getRight) r.getRight
  let bottom := rs.foldl (fun m q => max m q.getBottom) r.getBottom
  ⟨left, top, right - left, bottom - top⟩

/-- The bounding union of a list of rectangles as the specification words it:
the smallest rectangle around the non-empty ones, and `start` when there is
none. -/
def boundingUnion (start : Rectangle) (rs : List Rectangle) : Rectangle :=
  match rs.filter (fun r => !r.isEmpty) with
  | [] => start
  | r :: rest => boundingBox r rest

/-- The invalid region after a run of submissions as the specification words
it: every rectangle is intersected with the local bounds before it is unioned
in. -/
def specInvalidRegion (areas : List Rectangle) (s : Surface) : Rectangle :=
  boundingUnion s.invalidArea (areas.map (fun a => s.getLocalBounds.getIntersection a))

/-- The state in which the two passes of a tick run: after the reinitialisation
check and the framebuffer reconciliation. -/
def passState (env : Env) (s : Surface) : Surface :=
  (updateBufferSize env (reinitialise env s).1).1

/-- Both `makeContextActive()` calls of the tick report success. -/
def activationSucceeds (b : Backend) (env : Env) (s : Surface) : Bool :=
  makeContextActive b env.activate1 (passState env s)
    && makeContextActive b env.activate2 (passState env s)

/-- Both `makeContextActive()` calls of the tick report failure. -/
def activationFails (b : Backend) (env : Env) (s : Surface) : Bool :=
  !makeContextActive b env.activate1 (passState env s)
    && !makeContextActive b env.activate2 (passState env s)

/-- Both framebuffers are non-null when the passes of the tick run. -/
def framebuffersLive (env : Env) (s : Surface) : Bool :=
  (passState env s).mainFBO.isSome && (passState env s).invalidFBO.isSome

/-- The call creates the framebuffer of target `t`. -/
def Op.isCreateFramebuffer (t : Target) : Op → Bool
  | Op.createFramebuffer t2 _ _ => t2 == t
  | _ => false

/-- The call list creates both framebuffers anew. -/
def recreatesFramebuffers (ops : List Op) : Bool :=
  ops.any (Op.isCreateFramebuffer Target.mainFBO)
    && ops.any (Op.isCreateFramebuffer Target.invalidFBO)

/-- Calls that draw or present: binding a target, setting up, filling or
ending a frame, handing a clip to the scene owner, swapping buffers. -/
def Op.isDrawOrSwap : Op → Bool
  | Op.bindFramebuffer _ => true
  | Op.viewport _ _ => true
  | Op.clear => true
  | Op.beginFrame _ _ _ => true
  | Op.scissor _ => true
  | Op.renderArea _ => true
  | Op.fillImage _ _ => true
  | Op.renderSplitView => true
  | Op.endFrame => true
  | Op.swapBuffers => true
  | _ => false

/-- The call composites the main target to the screen: the textured fill of
the present pass. -/
def Op.isCompositeMain : Op → Bool
  | Op.fillImage _ Target.mainFBO => true
  | _ => false

/-- The call is `swapBuffers`. -/
def Op.isSwap : Op → Bool
  | Op.swapBuffers => true
  | _ => false

/-- One display refresh on the GL backend: `render()`, then `timerCallback()`
if the resize timer is running (nothing after a `render()` that stopped at a
null framebuffer). -/
def tick (env : Env) (s : Surface) : Surface :=
  if crashed (render Backend.gl env s).2 then (render Backend.gl env s).1
  else if (render Backend.gl env s).1.timerRunning then
    timerCallback (render Backend.gl env s).1
  else (render Backend.gl env s).1

/-- A run of ticks, one per environment, first to last; the run ends with the
first tick whose `render()` stops at a null framebuffer. -/
def runTicks : List Env → Surface → Surface
  | [], s => s
  | env :: rest, s =>
    if crashed (render Backend.gl env s).2 then (render Backend.gl env s).1
    else runTicks rest (tick env s)

/-- States that `box` is the bounding box of the rectangles `rs`: its left and top edges
are the least left and top edges found in `rs`, its right and bottom edges the
greatest right and bottom edges found in `rs`. -/
def IsBoundingBoxOf (box : Rectangle) (rs : List Rectangle) : Prop :=
  (∀ q ∈ rs, box.x ≤ q.x ∧ box.y ≤ q.y ∧ q.getRight ≤ box.getRight
      ∧ q.getBottom ≤ box.getBottom)
    ∧ (∃ q ∈ rs, box.x = q.x) ∧ (∃ q ∈ rs, box.y = q.y)
    ∧ (∃ q ∈ rs, box.getRight = q.getRight) ∧ (∃ q ∈ rs, box.getBottom = q.getBottom)

/-- A surface of the given size at the origin: attached, visible, framebuffers
live at scale 1, nothing invalid, nothing pending, no resize in flight. -/
def idleSurface (width height : Int) : Surface :=
  { bounds := ⟨0, 0, width, height⟩
    visible := true
    contextAttached := true
    nvg := true
    invalidArea := ⟨0, 0, 0, 0⟩
    needsBufferSwap := false
    fbWidth := width
    fbHeight := height
    mainFBO := some ⟨width, height⟩
    invalidFBO := some ⟨width, height⟩
    lastScaleFactor := ⟨1, 1⟩
    newBounds := ⟨0, 0, width, height⟩
    hresize := false
    resizing := false
    timerRunning := false }

/-- A tick in which every activation and every creation succeeds, at scale 1. -/
def goodEnv : Env :=
  { pixelScale := ⟨1, 1⟩
    activate1 := true
    activate2 := true
    attachOk := true
    createContextOk := true
    mainFramebufferOk := true
    invalidFramebufferOk := true
    pluginMode := false }

/-- A tick on which `makeActive()` fails at both passes. -/
def inactiveEnv : Env :=
  { goodEnv with activate1 := false, activate2 := false }

/-- A 100x100 idle surface on which `(10,10,5,5)` has been invalidated. -/
def damagedSurface : Surface :=
  { idleSurface 100 100 with invalidArea := ⟨10, 10, 5, 5⟩ }

/-- A 100x100 surface, nothing invalid or pending, whose main framebuffer is
absent while the recorded size is 100x100. -/
def bareSurface : Surface :=
  { idleSurface 100 100 with mainFBO := none }

/-- A 100x100 idle surface whose bounds have just been set to 200x100: the
framebuffers are still the 100x100 ones. -/
def grownSurface : Surface :=
  (idleSurface 100 100).setBounds ⟨0, 0, 200, 100⟩

/-- An idle 100x100 surface whose axis toggle selects the width. -/
def widthFirstSurface : Surface :=
  { idleSurface 100 100 with hresize := true }

/-- A tick on which `nvgCreateContext` returns null while the GL context can
be made active. -/
def contextlessEnv : Env :=
  { goodEnv with createContextOk := false }

/-- A tick on which `nvgCreateFramebuffer` returns null for the main target. -/
def noMainFramebufferEnv : Env :=
  { goodEnv with mainFramebufferOk := false }

/-- A tick in which `nvgCreateFramebuffer` returns null for the scratch target. -/
def noInvalidFramebufferEnv : Env :=
  { goodEnv with invalidFramebufferOk := false }

/-- A tick at pixel scale 1.5. -/
def scale150Env : Env :=
  { goodEnv with pixelScale := ⟨3, 2⟩ }

/-- A 100x100 idle surface on which `(90,90,20,20)`, reaching past the right and
bottom edges, has been invalidated. -/
def overhangSurface : Surface :=
  invalidateArea ⟨90, 90, 20, 20⟩ (idleSurface 100 100)

/-- A 200x100 idle surface on which `(150,10,5,5)` has been invalidated and
whose bounds have then been set to 100x100. -/
def shrunkSurface : Surface :=
  (invalidateArea ⟨150, 10, 5, 5⟩ (idleSurface 200 100)).setBounds ⟨0, 0, 100, 100⟩

/-- A 200x100 idle surface on which `(150,10,5,5)` has been invalidated and
whose bounds have then been set to 0x100. -/
def collapsedSurface : Surface :=
  (invalidateArea ⟨150, 10, 5, 5⟩ (idleSurface 200 100)).setBounds ⟨0, 0, 0, 100⟩

end NVGSurface

/-!
# ScalarObject: colours, curve points and the label buffer

A shallow embedding of the integer and array code of
`Source/Objects/ScalarObject.h`: `DrawableTemplate::numbertocolor`, the `pix`
array of `DrawableCurve::update` and the `buf` array of
`DrawableSymbol::update`.

* An `int` product that could leave the 32-bit range is reduced with
  `wrapInt32`.
* A local C array is the function from index to content; a cell is `none`
  until it is written.  Writing or reading outside the array, and reading a
  cell that was never written, make the function return `none`.
* A `for` loop with a counter is a recursion on the number of iterations left.
* The C library functions (`strncpy`, `strlen`, `memcpy`, `strcpy`) follow the
  C standard; what Pd computes (`fielddesc_getcoord`, `binbuf_gettext`,
  `atom_string`) is a parameter.
-/

namespace ScalarObject

/-- Value of a C `int` whose mathematical value is `x`: reduced into the
32-bit two's complement range. -/
def wrapInt32 (x : Int) : Int := (x + 2147483648) % 4294967296 - 2147483648

/-- A JUCE `Colour` built from three `uint8` components. -/
structure Colour where
  red : Int
  green : Int
  blue : Int
deriving DecidableEq, Repr

/-- Constructor `Colour (uint8 red, uint8 green, uint8 blue)`: every `int`
argument is converted to `uint8`. -/
def Colour.fromRGB (red green blue : Int) : Colour :=
  ⟨red % 256, green % 256, blue % 256⟩

/-- Source function `DrawableTemplate::rangecolor` (and the lambda of the same
body inside `numbertocolor`). -/
def DrawableTemplate.rangecolor (n : Int) : Int :=
  let n2 := if n = 9 then 8 else n
  let ret := wrapInt32 (n2 * 32)
  if ret > 255 then 255 else ret

/-- Source function `DrawableTemplate::numbertocolor`.  The divisions are C
divisions (truncating). -/
def DrawableTemplate.numbertocolor (n : Int) : Colour :=
  let m := if n < 0 then 0 else n
  Colour.fromRGB (DrawableTemplate.rangecolor (Int.tdiv m 100))
    (DrawableTemplate.rangecolor (Int.tmod (Int.tdiv m 10) 10))
    (DrawableTemplate.rangecolor (Int.tmod m 10))

/-- The component the specification gives for the decimal digit `d`:
`min(255, 32*d')` with `d' = 8` when `d = 9` and `d' = d` otherwise. -/
def digitLevel (d : Int) : Int := min 255 (32 * (if d = 9 then 8 else d))

/-- A local C array: the content of every index, `none` while unwritten. -/
abbrev CArray : Type := Int → Option Int

/-- A local array right after its declaration: nothing written. -/
def freshArray : CArray := fun _ => none

/-- The store `a[i] = v` into an array of `size` elements. -/
def writeCell (size : Int) (a : CArray) (i v : Int) : Option CArray :=
  if 0 ≤ i ∧ i < size then some (fun j => if j = i then some v else a j) else none

/-- The load `a[i]` from an array of `size` elements. -/
def readCell (size : Int) (a : CArray) (i : Int) : Option Int :=
  if 0 ≤ i ∧ i < size then a i else none

/-- What `DrawableCurve::update` does once the scalar is visible: it posts the
warning, or it sets the path that visits the given points, or (a closed curve
whose path has empty bounds `drawBounds`) it clears that path, sets the path
`addEllipse(drawBounds.withSizeKeepingCentre(5, 5))`, the stroke thickness 2
and the stroke fill as fill. -/
inductive CurveOutcome where
  | warning
  | path (points : List (Int × Int))
  | dot (drawBounds : NVGSurface.Rectangle)
deriving DecidableEq, Repr

/-- Value of `Path::getBounds` for a path made of `startNewSubPath` and
`lineTo` calls: the smallest rectangle holding every point visited. -/
def pathBounds : List (Int × Int) → NVGSurface.Rectangle
  | [] => ⟨0, 0, 0, 0⟩
  | p :: rest =>
    let minX := (rest.map Prod.fst).foldl min p.1
    let maxX := (rest.map Prod.fst).foldl max p.1
    let minY := (rest.map Prod.snd).foldl min p.2
    let maxY := (rest.map Prod.snd).foldl max p.2
    ⟨minX, minY, maxX - minX, maxY - minY⟩

/-- The end of `DrawableCurve::update`, from `auto drawBounds = toDraw.getBounds()`
to `setPath(toDraw)`: `points` are the points `toDraw` visits. -/
def DrawableCurve.setPathOf (closed : Bool) (points : List (Int × Int)) : CurveOutcome :=
  if closed && (pathBounds points).isEmpty then CurveOutcome.dot (pathBounds points)
  else CurveOutcome.path points

/-- The first loop of `DrawableCurve::update`,
`for (i = 0; i < n; i++) { pix[2*i] = ...; pix[2*i+1] = ...; }`, with `k`
iterations left at counter `i`; `coords i` are the pixel coordinates computed
for point `i`. -/
def DrawableCurve.fillLoop (coords : Int → Int × Int) : Nat → Int → CArray → Option CArray
  | 0, _, pix => some pix
  | k + 1, i, pix =>
    (writeCell 200 pix (2 * i) (coords i).1).bind fun pix1 =>
      (writeCell 200 pix1 (2 * i + 1) (coords i).2).bind fun pix2 =>
        DrawableCurve.fillLoop coords k (i + 1) pix2

/-- The second loop of `DrawableCurve::update`,
`for (i = 1; i < n; i++) toDraw.lineTo(pix[2*i], pix[2*i+1]);`, with `k`
iterations left at counter `i`: the points handed to `lineTo`. -/
def DrawableCurve.lineLoop (pix : CArray) : Nat → Int → Option (List (Int × Int))
  | 0, _ => some []
  | k + 1, i =>
    (readCell 200 pix (2 * i)).bind fun x =>
      (readCell 200 pix (2 * i + 1)).bind fun y =>
        (DrawableCurve.lineLoop pix k (i + 1)).map fun rest => (x, y) :: rest

/-- Source function `DrawableCurve::update`, from `if (n > 1)` on: `npoints` is
`x->x_npoints`, `closed` is `flags & CLOSED`. -/
def DrawableCurve.update (coords : Int → Int × Int) (npoints : Int) (closed : Bool) :
    Option CurveOutcome :=
  if npoints > 1 then
    let n := if npoints > 100 then 100 else npoints
    (DrawableCurve.fillLoop coords n.toNat 0 freshArray).bind fun pix =>
      (readCell 200 pix 0).bind fun x0 =>
        (readCell 200 pix 1).bind fun y0 =>
          (DrawableCurve.lineLoop pix (n - 1).toNat 1).bind fun rest =>
            if closed then
              (readCell 200 pix 0).bind fun x =>
                (readCell 200 pix 1).bind fun y =>
                  some (DrawableCurve.setPathOf closed ((x0, y0) :: rest ++ [(x, y)]))
            else some (DrawableCurve.setPathOf closed ((x0, y0) :: rest))
  else some CurveOutcome.warning

/-- The points of a curve as the specification reads them: `coords i` for `k`
consecutive indices from `i` on. -/
def pointsFrom (coords : Int → Int × Int) : Nat → Int → List (Int × Int)
  | 0, _ => []
  | k + 1, i => coords i :: pointsFrom coords k (i + 1)

/-- Consecutive stores `a[start] = b0; a[start+1] = b1; ...` of a list of
bytes: what `memcpy` and `strcpy` do to their destination. -/
def storeBytes (size : Int) : CArray → Int → List Int → Option CArray
  | a, _, [] => some a
  | a, start, b :: rest =>
    (writeCell size a start b).bind fun a1 => storeBytes size a1 (start + 1) rest

/-- The characters of a C string: everything before the first NUL. -/
def cString (chars : List Int) : List Int := chars.takeWhile (fun c => c != 0)

/-- The `count` bytes `strncpy(dst, src, count)` stores: the characters of
`src`, at most `count` of them, then NUL padding up to `count`. -/
def strncpyBytes (src : List Int) (count : Nat) : List Int :=
  (cString src).take count ++ List.replicate (count - (cString src).length) 0

/-- The scan of `strlen`: load cell after cell from `i` on until a NUL is
found, with `fuel` loads left. -/
def strlenLoop (size : Int) (a : CArray) : Nat → Int → Option Int
  | 0, _ => none
  | fuel + 1, i =>
    (readCell size a i).bind fun c => if c = 0 then some i else strlenLoop size a fuel (i + 1)

/-- C `strlen` on an array of `size` bytes: `none` when the scan leaves the
array or meets an unwritten cell. -/
def strlen (size : Int) (a : CArray) : Option Int := strlenLoop size a size.toNat 0

/-- C `memcpy(dst + start, src, count)`: `none` when `count` is negative or
exceeds the source. -/
def memcpy (size : Int) (a : CArray) (start : Int) (src : List Int) (count : Int) :
    Option CArray :=
  if 0 ≤ count ∧ count ≤ src.length then storeBytes size a start (src.take count.toNat)
  else none

/-- C `strcpy(dst + start, literal)`: the characters and the terminating NUL. -/
def strcpy (size : Int) (a : CArray) (start : Int) (literal : List Int) : Option CArray :=
  storeBytes size a start (literal ++ [0])

/-- The value the specification gives for `nchars`: the length of the label,
capped at 1023 by the terminator stored at `buf[1023]`. -/
def specNchars (label : List Int) : Int := min ((cString label).length : Int) 1023

/-- The value the specification gives for `ncopy`:
`min(size2, 1023 - nchars)`. -/
def specNcopy (label text : List Int) : Int :=
  min (text.length : Int) (1023 - specNchars label)

/-- The field `DrawableSymbol::update` displays after the label. -/
inductive FieldValue where
  /-- Field not found, or an array: `type = -1`. -/
  | missing
  /-- Type `DT_TEXT`: the `size2` bytes `binbuf_gettext` returns in `buf2`. -/
  | text (bytes : List Int)
  /-- Float or symbol: the bytes `atom_string` stores at `buf + nchars`, its
  terminator included. -/
  | atom (stored : List Int)
deriving DecidableEq, Repr

/-- The locals of `DrawableSymbol::update` when `buf` is handed to `setText`. -/
structure SymbolBuffer where
  buf : CArray
  /-- Value of `nchars`, when the branch that sets it ran. -/
  nchars : Option Int
  /-- Value of `ncopy`, when the branch that sets it ran. -/
  ncopy : Option Int
  /-- Length of the C string `String::fromUTF8(buf)` reads. -/
  shownLength : Int

/-- Source function `DrawableSymbol::update`, from `char buf[1024]` to
`setText`; `label` holds the characters of `x->x_label->s_name`. -/
def DrawableSymbol.update (label : List Int) (field : FieldValue) : Option SymbolBuffer :=
  match field with
  | FieldValue.missing =>
    (writeCell 1024 freshArray 0 0).bind fun buf =>
      (strlen 1024 buf).map fun len => ⟨buf, none, none, len⟩
  | FieldValue.text bytes =>
    (storeBytes 1024 freshArray 0 (strncpyBytes label 1024)).bind fun b1 =>
      (writeCell 1024 b1 (1024 - 1) 0).bind fun b2 =>
        (strlen 1024 b2).bind fun nchars =>
          let size2 : Int := bytes.length
          let ncopy := if size2 > 1024 - 1 - nchars then 1024 - 1 - nchars else size2
          (memcpy 1024 b2 nchars bytes ncopy).bind fun b3 =>
            (writeCell 1024 b3 (nchars + ncopy) 0).bind fun b4 =>
              (if nchars + ncopy = 1024 - 1 then strcpy 1024 b4 (1024 - 4) [46, 46, 46]
                else some b4).bind fun b5 =>
                (strlen 1024 b5).map fun len => ⟨b5, some nchars, some ncopy, len⟩
  | FieldValue.atom stored =>
    (storeBytes 1024 freshArray 0 (strncpyBytes label 1024)).bind fun b1 =>
      (writeCell 1024 b1 (1024 - 1) 0).bind fun b2 =>
        (strlen 1024 b2).bind fun nchars =>
          (storeBytes 1024 b2 nchars stored).bind fun b3 =>
            (strlen 1024 b3).map fun len => ⟨b3, some nchars, none, len⟩

end ScalarObject

namespace NVGSurface

/-! ## Rectangles -/

theorem Rectangle.getUnion_of_isEmpty_right (r other : Rectangle)
    (h : other.isEmpty = true) : r.getUnion other = r := by
  simp [Rectangle.getUnion, h]

theorem Rectangle.getUnion_of_isEmpty_left (r other : Rectangle)
    (h : r.isEmpty = true) (h2 : other.isEmpty = false) : r.getUnion other = other := by
  simp [Rectangle.getUnion, h, h2]

theorem Rectangle.isEmpty_eq_false_iff (r : Rectangle) :
    r.isEmpty = false ↔ 0 < r.w ∧ 0 < r.h := by
  simp [Rectangle.isEmpty]

theorem Rectangle.getUnion_isEmpty (r other : Rectangle)
    (h : r.isEmpty = false) (h2 : other.isEmpty = false) :
    (r.getUnion other).isEmpty = false := by
  have hr := (Rectangle.isEmpty_eq_false_iff r).1 h
  have ho := (Rectangle.isEmpty_eq_false_iff other).1 h2
  rw [Rectangle.isEmpty_eq_false_iff]
  simp only [Rectangle.getUnion, h, h2, Bool.false_eq_true, if_false]
  constructor <;> omega

theorem Rectangle.getIntersection_of_contains (outer r : Rectangle)
    (h : outer.contains r = true) (hr : r.isEmpty = false) :
    outer.getIntersection r = r := by
  have hpos := (Rectangle.isEmpty_eq_false_iff r).1 hr
  simp only [Rectangle.contains, Bool.and_eq_true, decide_eq_true_eq] at h
  obtain ⟨⟨⟨h1, h2⟩, h3⟩, h4⟩ := h
  have e1 : max outer.x r.x = r.x := by omega
  have e2 : max outer.y r.y = r.y := by omega
  have e3 : min (outer.x + outer.w) (r.x + r.w) - r.x = r.w := by omega
  have e4 : min (outer.y + outer.h) (r.y + r.h) - r.y = r.h := by omega
  simp only [Rectangle.getIntersection, e1, e2, e3, e4]
  rw [if_pos (by omega), if_pos (by omega)]

/-! ## Accumulating the invalid region -/

theorem invalidateAreas_invalidArea (areas : List Rectangle) (s : Surface) :
    (invalidateAreas areas s).invalidArea = areas.foldl Rectangle.getUnion s.invalidArea := by
  induction areas generalizing s with
  | nil => rfl
  | cons a rest ih =>
    have := ih (invalidateArea a s)
    simpa [invalidateAreas, invalidateArea] using this

theorem invalidateAreas_eq (areas : List Rectangle) (s : Surface) :
    invalidateAreas areas s
      = { s with invalidArea := areas.foldl Rectangle.getUnion s.invalidArea } := by
  induction areas generalizing s with
  | nil => rfl
  | cons a rest ih =>
    have := ih (invalidateArea a s)
    simpa [invalidateAreas, invalidateArea] using this

theorem foldl_getUnion_filter (areas : List Rectangle) (acc : Rectangle) :
    areas.foldl Rectangle.getUnion acc
      = (areas.filter (fun r => !r.isEmpty)).foldl Rectangle.getUnion acc := by
  induction areas generalizing acc with
  | nil => rfl
  | cons a rest ih =>
    cases h : a.isEmpty with
    | true => simp [List.filter, h, Rectangle.getUnion_of_isEmpty_right, ih]
    | false => simp [List.filter, h, ih]

theorem boundingBox_cons (acc q : Rectangle) (rs : List Rectangle)
    (h : acc.isEmpty = false) (h2 : q.isEmpty = false) :
    boundingBox (acc.getUnion q) rs = boundingBox acc (q :: rs) := by
  have e1 : (acc.getUnion q).x = min acc.x q.x := by simp [Rectangle.getUnion, h, h2]
  have e2 : (acc.getUnion q).y = min acc.y q.y := by simp [Rectangle.getUnion, h, h2]
  have e3 : (acc.getUnion q).getRight = max acc.getRight q.getRight := by
    simp only [Rectangle.getUnion, h, h2, Bool.false_eq_true, if_false, Rectangle.getRight]
    omega
  have e4 : (acc.getUnion q).getBottom = max acc.getBottom q.getBottom := by
    simp only [Rectangle.getUnion, h, h2, Bool.false_eq_true, if_false, Rectangle.getBottom]
    omega
  simp only [boundingBox, List.foldl_cons, e1, e2, e3, e4]

theorem foldl_getUnion_eq_boundingBox (rs : List Rectangle) (acc : Rectangle)
    (h : acc.isEmpty = false) (hrs : ∀ r ∈ rs, r.isEmpty = false) :
    rs.foldl Rectangle.getUnion acc = boundingBox acc rs := by
  induction rs generalizing acc with
  | nil =>
    cases acc
    simp [boundingBox, Rectangle.getRight, Rectangle.getBottom]
  | cons q rest ih =>
    have hq : q.isEmpty = false := hrs q (List.mem_cons_self _ _)
    have hrest : ∀ r ∈ rest, r.isEmpty = false := fun r hr => hrs r (List.mem_cons_of_mem _ hr)
    rw [List.foldl_cons, ih _ (Rectangle.getUnion_isEmpty acc q h hq) hrest,
      boundingBox_cons acc q rest h hq]

theorem invalidateAreas_eq_boundingUnion (areas : List Rectangle) (s : Surface)
    (hs : s.invalidArea.isEmpty = true) :
    (invalidateAreas areas s).invalidArea = boundingUnion s.invalidArea areas := by
  rw [invalidateAreas_invalidArea, foldl_getUnion_filter, boundingUnion]
  have hmem : ∀ r ∈ areas.filter (fun r => !r.isEmpty), r.isEmpty = false := by
    intro r hr
    have := (List.mem_filter.1 hr).2
    simpa using this
  generalize areas.filter (fun r => !r.isEmpty) = l at hmem
  cases l with
  | nil => rfl
  | cons r rest =>
    have hr : r.isEmpty = false := hmem r (List.mem_cons_self _ _)
    have hrest : ∀ q ∈ rest, q.isEmpty = false := fun q hq => hmem q (List.mem_cons_of_mem _ hq)
    rw [List.foldl_cons, Rectangle.getUnion_of_isEmpty_left _ _ hs hr,
      foldl_getUnion_eq_boundingBox rest r hr hrest]

/-! ## Folding `min` and `max` over a list -/

theorem foldl_min_le (f : Rectangle → Int) (rs : List Rectangle) (a : Int) :
    rs.foldl (fun m q => min m (f q)) a ≤ a
      ∧ ∀ q ∈ rs, rs.foldl (fun m q => min m (f q)) a ≤ f q := by
  induction rs generalizing a with
  | nil => simp
  | cons r rest ih =>
    obtain ⟨h1, h2⟩ := ih (min a (f r))
    refine ⟨by simp only [List.foldl_cons]; omega, ?_⟩
    intro q hq
    simp only [List.foldl_cons]
    rcases List.mem_cons.1 hq with rfl | hq
    · omega
    · exact h2 q hq

theorem foldl_min_attained (f : Rectangle → Int) (rs : List Rectangle) (a : Int) :
    rs.foldl (fun m q => min m (f q)) a = a
      ∨ ∃ q ∈ rs, rs.foldl (fun m q => min m (f q)) a = f q := by
  induction rs generalizing a with
  | nil => simp
  | cons r rest ih =>
    simp only [List.foldl_cons]
    rcases ih (min a (f r)) with h | ⟨q, hq, h⟩
    · rcases le_total a (f r) with hle | hle
      · left; rw [h]; omega
      · right; exact ⟨r, List.mem_cons_self _ _, by rw [h]; omega⟩
    · right; exact ⟨q, List.mem_cons_of_mem _ hq, h⟩

theorem le_foldl_max (f : Rectangle → Int) (rs : List Rectangle) (a : Int) :
    a ≤ rs.foldl (fun m q => max m (f q)) a
      ∧ ∀ q ∈ rs, f q ≤ rs.foldl (fun m q => max m (f q)) a := by
  induction rs generalizing a with
  | nil => simp
  | cons r rest ih =>
    obtain ⟨h1, h2⟩ := ih (max a (f r))
    refine ⟨by simp only [List.foldl_cons]; omega, ?_⟩
    intro q hq
    simp only [List.foldl_cons]
    rcases List.mem_cons.1 hq with rfl | hq
    · omega
    · exact h2 q hq

theorem foldl_max_attained (f : Rectangle → Int) (rs : List Rectangle) (a : Int) :
    rs.foldl (fun m q => max m (f q)) a = a
      ∨ ∃ q ∈ rs, rs.foldl (fun m q => max m (f q)) a = f q := by
  induction rs generalizing a with
  | nil => simp
  | cons r rest ih =>
    simp only [List.foldl_cons]
    rcases ih (max a (f r)) with h | ⟨q, hq, h⟩
    · rcases le_total a (f r) with hle | hle
      · right; exact ⟨r, List.mem_cons_self _ _, by rw [h]; omega⟩
      · left; rw [h]; omega
    · right; exact ⟨q, List.mem_cons_of_mem _ hq, h⟩

/-! ## The bounding box is the box of least and greatest edges -/

theorem boundingBox_isBoundingBoxOf (r : Rectangle) (rs : List Rectangle) :
    IsBoundingBoxOf (boundingBox r rs) (r :: rs) := by
  have hx := foldl_min_le Rectangle.x rs r.x
  have hy := foldl_min_le Rectangle.y rs r.y
  have hr := le_foldl_max Rectangle.getRight rs r.getRight
  have hb := le_foldl_max Rectangle.getBottom rs r.getBottom
  have ex : ∀ a b : Int, a + (b - a) = b := fun a b => by omega
  refine ⟨?_, ?_, ?_, ?_, ?_⟩
  · intro q hq
    simp only [boundingBox, Rectangle.getRight, Rectangle.getBottom, ex]
    rcases List.mem_cons.1 hq with rfl | hq
    · exact ⟨hx.1, hy.1, hr.1, hb.1⟩
    · exact ⟨hx.2 q hq, hy.2 q hq, hr.2 q hq, hb.2 q hq⟩
  · rcases foldl_min_attained Rectangle.x rs r.x with h | ⟨q, hq, h⟩
    · exact ⟨r, List.mem_cons_self _ _, h⟩
    · exact ⟨q, List.mem_cons_of_mem _ hq, h⟩
  · rcases foldl_min_attained Rectangle.y rs r.y with h | ⟨q, hq, h⟩
    · exact ⟨r, List.mem_cons_self _ _, h⟩
    · exact ⟨q, List.mem_cons_of_mem _ hq, h⟩
  · simp only [boundingBox, Rectangle.getRight, ex]
    rcases foldl_max_attained Rectangle.getRight rs r.getRight with h | ⟨q, hq, h⟩
    · exact ⟨r, List.mem_cons_self _ _, h⟩
    · exact ⟨q, List.mem_cons_of_mem _ hq, h⟩
  · simp only [boundingBox, Rectangle.getBottom, ex]
    rcases foldl_max_attained Rectangle.getBottom rs r.getBottom with h | ⟨q, hq, h⟩
    · exact ⟨r, List.mem_cons_self _ _, h⟩
    · exact ⟨q, List.mem_cons_of_mem _ hq, h⟩

theorem IsBoundingBoxOf.unique {a b : Rectangle} {rs : List Rectangle}
    (ha : IsBoundingBoxOf a rs) (hb : IsBoundingBoxOf b rs) : a = b := by
  obtain ⟨al, ⟨qx, hqx, ax⟩, ⟨qy, hqy, ay⟩, ⟨qr, hqr, ar⟩, ⟨qb, hqb, ab⟩⟩ := ha
  obtain ⟨bl, ⟨px, hpx, bx⟩, ⟨py, hpy, bY⟩, ⟨pr, hpr, br⟩, ⟨pb, hpb, bb⟩⟩ := hb
  have h1 := al px hpx
  have h2 := al py hpy
  have h3 := al pr hpr
  have h4 := al pb hpb
  have h5 := bl qx hqx
  have h6 := bl qy hqy
  have h7 := bl qr hqr
  have h8 := bl qb hqb
  cases a
  cases b
  simp only [Rectangle.getRight, Rectangle.getBottom] at *
  simp only [Rectangle.mk.injEq]
  refine ⟨?_, ?_, ?_, ?_⟩ <;> omega

theorem IsBoundingBoxOf.of_perm {a : Rectangle} {rs rs2 : List Rectangle}
    (ha : IsBoundingBoxOf a rs) (hp : rs2.Perm rs) : IsBoundingBoxOf a rs2 := by
  obtain ⟨al, ⟨qx, hqx, ax⟩, ⟨qy, hqy, ay⟩, ⟨qr, hqr, ar⟩, ⟨qb, hqb, ab⟩⟩ := ha
  exact ⟨fun q hq => al q (hp.mem_iff.1 hq), ⟨qx, hp.mem_iff.2 hqx, ax⟩,
    ⟨qy, hp.mem_iff.2 hqy, ay⟩, ⟨qr, hp.mem_iff.2 hqr, ar⟩, ⟨qb, hp.mem_iff.2 hqb, ab⟩⟩

theorem invalidateAreas_isBoundingBoxOf (areas : List Rectangle) (s : Surface)
    (hs : s.invalidArea.isEmpty = true) (hne : areas ≠ [])
    (hall : ∀ r ∈ areas, r.isEmpty = false) :
    IsBoundingBoxOf (invalidateAreas areas s).invalidArea areas := by
  have hfilter : areas.filter (fun r => !r.isEmpty) = areas := by
    apply List.filter_eq_self.2
    intro r hr
    simp [hall r hr]
  rw [invalidateAreas_eq_boundingUnion areas s hs, boundingUnion, hfilter]
  cases areas with
  | nil => exact absurd rfl hne
  | cons r rest => exact boundingBox_isBoundingBoxOf r rest

/-! ## Claims -/

/-- C1, as stated, fails.  On a 100x100 surface with an empty invalid region,
`invalidateArea ((90,90,20,20))` leaves the region `(90,90,20,20)`: the
rectangle is not intersected with the local bounds, which would have given
`(90,90,10,10)`. -/
theorem c1_not_clipped_to_bounds :
    (invalidateAreas [⟨90, 90, 20, 20⟩] (idleSurface 100 100)).invalidArea = ⟨90, 90, 20, 20⟩
      ∧ (passState goodEnv
          (invalidateAreas [⟨90, 90, 20, 20⟩] (idleSurface 100 100))).invalidArea
          = ⟨90, 90, 20, 20⟩
      ∧ specInvalidRegion [⟨90, 90, 20, 20⟩] (idleSurface 100 100) = ⟨90, 90, 10, 10⟩
      ∧ (invalidateAreas [⟨90, 90, 20, 20⟩] (idleSurface 100 100)).invalidArea
          ≠ specInvalidRegion [⟨90, 90, 20, 20⟩] (idleSurface 100 100) := by
  decide

/-- C1, amended.  Starting from an empty invalid region, after any finite run
of `invalidateArea` calls the invalid region is the bounding union of the
submitted rectangles themselves (the smallest rectangle around the non-empty
ones, the starting region when there is none); no intersection with the
surface bounds takes place.  That region is the one the passes of the next
tick find, unless the tick reinitialises the surface or recreates the
framebuffers first. -/
theorem c1_invalid_region_is_bounding_union (areas : List Rectangle) (s : Surface)
    (hs : s.invalidArea.isEmpty = true) :
    (invalidateAreas areas s).invalidArea = boundingUnion s.invalidArea areas
      ∧ ∀ env : Env, (!isAttached s && s.visible) = false →
          needsNewFramebuffers env s = false →
          (passState env (invalidateAreas areas s)).invalidArea
            = boundingUnion s.invalidArea areas := by
  have h := invalidateAreas_eq_boundingUnion areas s hs
  refine ⟨h, ?_⟩
  intro env hinit hfb
  rw [← h, invalidateAreas_eq]
  have hinit2 : (!isAttached { s with
      invalidArea := areas.foldl Rectangle.getUnion s.invalidArea } && s.visible) = false :=
    hinit
  have hfb2 : needsNewFramebuffers env { s with
      invalidArea := areas.foldl Rectangle.getUnion s.invalidArea } = false := hfb
  simp [passState, reinitialise, updateBufferSize, hinit2, hfb2]

/-- C1, amended, at a concrete run: three submissions on a 100x100 surface,
one of them empty and one reaching past the right edge. -/
theorem c1_invalid_region_is_bounding_union_witness :
    (idleSurface 100 100).invalidArea.isEmpty = true
      ∧ (invalidateAreas [⟨10, 10, 5, 5⟩, ⟨3, 4, 0, 9⟩, ⟨90, 20, 20, 5⟩]
            (idleSurface 100 100)).invalidArea
          = boundingUnion (idleSurface 100 100).invalidArea
              [⟨10, 10, 5, 5⟩, ⟨3, 4, 0, 9⟩, ⟨90, 20, 20, 5⟩]
      ∧ boundingUnion (idleSurface 100 100).invalidArea
          [⟨10, 10, 5, 5⟩, ⟨3, 4, 0, 9⟩, ⟨90, 20, 20, 5⟩] = ⟨10, 10, 100, 15⟩ :=
  ⟨by decide,
    (c1_invalid_region_is_bounding_union _ (idleSurface 100 100) (by decide)).1, by decide⟩

/-- C2.  From an empty invalid region, `invalidateArea` on each rectangle of a
non-empty run of non-empty rectangles lying inside the surface bounds leaves
the invalid region equal to their bounding box (least left, least top,
greatest right, greatest bottom), every reordering of the run leaves the same
region, for such rectangles the region agrees with the reading in which each
rectangle is first intersected with the bounds, and the region lies inside the
bounds (so that no coordinate sum leaves the range spanned by the bounds). -/
theorem c2_invalid_region_is_bounding_box (areas : List Rectangle) (s : Surface)
    (hs : s.invalidArea.isEmpty = true) (hne : areas ≠ [])
    (hall : ∀ r ∈ areas, r.isEmpty = false)
    (hin : ∀ r ∈ areas, s.getLocalBounds.contains r = true) :
    IsBoundingBoxOf (invalidateAreas areas s).invalidArea areas
      ∧ (∀ reordered : List Rectangle, reordered.Perm areas →
          (invalidateAreas reordered s).invalidArea = (invalidateAreas areas s).invalidArea)
      ∧ (invalidateAreas areas s).invalidArea = specInvalidRegion areas s
      ∧ s.getLocalBounds.contains (invalidateAreas areas s).invalidArea = true := by
  have hbox := invalidateAreas_isBoundingBoxOf areas s hs hne hall
  refine ⟨hbox, ?_, ?_, ?_⟩
  rotate_left
  · have hmap : areas.map (fun a => s.getLocalBounds.getIntersection a) = areas := by
      conv_rhs => rw [← List.map_id areas]
      apply List.map_congr_left
      intro r hr
      exact Rectangle.getIntersection_of_contains _ r (hin r hr) (hall r hr)
    rw [specInvalidRegion, hmap]
    exact invalidateAreas_eq_boundingUnion areas s hs
  · obtain ⟨-, ⟨qx, hqx, ex⟩, ⟨qy, hqy, ey⟩, ⟨qr, hqr, er⟩, ⟨qb, hqb, eb⟩⟩ := hbox
    have cx := hin qx hqx
    have cy := hin qy hqy
    have cr := hin qr hqr
    have cb := hin qb hqb
    simp only [Rectangle.contains, Bool.and_eq_true, decide_eq_true_eq,
      Rectangle.getRight, Rectangle.getBottom] at cx cy cr cb ex ey er eb ⊢
    refine ⟨⟨⟨?_, ?_⟩, ?_⟩, ?_⟩ <;> omega
  intro reordered hp
  have hne2 : reordered ≠ [] := by
    intro h
    rw [h] at hp
    exact hne (List.Perm.nil_eq hp).symm
  have hall2 : ∀ r ∈ reordered, r.isEmpty = false := fun r hr => hall r (hp.mem_iff.1 hr)
  have hbox2 := invalidateAreas_isBoundingBoxOf reordered s hs hne2 hall2
  exact IsBoundingBoxOf.unique (hbox2.of_perm hp.symm) hbox

/-- C2 at the scenario of the specification: on a 100x100 surface,
`(10,10,5,5)` then `(12,12,5,5)` gives the rectangle from `(10,10)` to
`(17,17)`, in either order. -/
theorem c2_invalid_region_is_bounding_box_witness :
    (IsBoundingBoxOf
        (invalidateAreas [⟨10, 10, 5, 5⟩, ⟨12, 12, 5, 5⟩] (idleSurface 100 100)).invalidArea
        [⟨10, 10, 5, 5⟩, ⟨12, 12, 5, 5⟩]
      ∧ (∀ reordered : List Rectangle,
          reordered.Perm [⟨10, 10, 5, 5⟩, ⟨12, 12, 5, 5⟩] →
          (invalidateAreas reordered (idleSurface 100 100)).invalidArea
            = (invalidateAreas [⟨10, 10, 5, 5⟩, ⟨12, 12, 5, 5⟩]
                (idleSurface 100 100)).invalidArea)
      ∧ (invalidateAreas [⟨10, 10, 5, 5⟩, ⟨12, 12, 5, 5⟩] (idleSurface 100 100)).invalidArea
          = specInvalidRegion [⟨10, 10, 5, 5⟩, ⟨12, 12, 5, 5⟩] (idleSurface 100 100)
      ∧ (idleSurface 100 100).getLocalBounds.contains
          (invalidateAreas [⟨10, 10, 5, 5⟩, ⟨12, 12, 5, 5⟩] (idleSurface 100 100)).invalidArea
          = true)
      ∧ (invalidateAreas [⟨10, 10, 5, 5⟩, ⟨12, 12, 5, 5⟩] (idleSurface 100 100)).invalidArea
          = ⟨10, 10, 7, 7⟩
      ∧ (invalidateAreas [⟨12, 12, 5, 5⟩, ⟨10, 10, 5, 5⟩] (idleSurface 100 100)).invalidArea
          = ⟨10, 10, 7, 7⟩ :=
  ⟨c2_invalid_region_is_bounding_box [⟨10, 10, 5, 5⟩, ⟨12, 12, 5, 5⟩] (idleSurface 100 100)
      (by decide) (by decide) (by decide) (by decide),
    by decide, by decide⟩

/-! ## The render tick -/

theorem makeContextActive_congr (b : Backend) (g : Bool) (s t : Surface)
    (h1 : t.contextAttached = s.contextAttached) (h2 : t.nvg = s.nvg) :
    makeContextActive b g t = makeContextActive b g s := by
  cases b <;> simp [makeContextActive, isAttached, h1, h2]

theorem renderInvalidated_not_crashed (b : Backend) (env : Env) (s : Surface)
    (h : s.invalidFBO.isSome = true ∨ s.invalidArea.isEmpty = true
          ∨ makeContextActive b env.activate1 s = false) :
    crashed (renderInvalidated b env s).2 = false := by
  unfold renderInvalidated
  rcases h with h | h | h
  · split
    · simp [h, crashed, Op.isNullDereference]
    · rfl
  · simp [h, crashed]
  · simp [h, crashed]

theorem render_fst (b : Backend) (env : Env) (s : Surface)
    (hc : crashed (renderInvalidated b env (passState env s)).2 = false) :
    (render b env s).1
      = (renderPresent b env (renderInvalidated b env (passState env s)).1).1 := by
  simp only [render, passState] at hc ⊢
  rw [hc]
  rfl

theorem render_snd (b : Backend) (env : Env) (s : Surface)
    (hc : crashed (renderInvalidated b env (passState env s)).2 = false) :
    (render b env s).2
      = (reinitialise env s).2 ++ (updateBufferSize env (reinitialise env s).1).2
          ++ (renderInvalidated b env (passState env s)).2
          ++ (renderPresent b env (renderInvalidated b env (passState env s)).1).2 := by
  simp only [render, passState] at hc ⊢
  rw [hc]
  rfl

theorem render_fst_of_crashed (b : Backend) (env : Env) (s : Surface)
    (hc : crashed (renderInvalidated b env (passState env s)).2 = true) :
    (render b env s).1 = (renderInvalidated b env (passState env s)).1 := by
  simp only [render, passState] at hc ⊢
  rw [hc]
  rfl

theorem render_snd_of_crashed (b : Backend) (env : Env) (s : Surface)
    (hc : crashed (renderInvalidated b env (passState env s)).2 = true) :
    (render b env s).2
      = (reinitialise env s).2 ++ (updateBufferSize env (reinitialise env s).1).2
          ++ (renderInvalidated b env (passState env s)).2 := by
  simp only [render, passState] at hc ⊢
  rw [hc]
  simp

theorem renderInvalidated_of_crashed (b : Backend) (env : Env) (s : Surface)
    (hc : crashed (renderInvalidated b env s).2 = true) :
    (renderInvalidated b env s).1 = s
      ∧ ∀ op ∈ (renderInvalidated b env s).2,
          op.isSwap = false ∧ op.isCompositeMain = false ∧ op ≠ Op.swapBuffers := by
  unfold renderInvalidated at hc ⊢
  split
  · split
    · rename_i h1 h2
      simp [h1, h2, crashed, Op.isNullDereference] at hc
    · simp [Op.isSwap, Op.isCompositeMain]
  · simp

theorem afterSwap_fields (s : Surface) :
    (afterSwap s).1.invalidArea = s.invalidArea ∧ (afterSwap s).1.bounds = s.bounds
      ∧ (afterSwap s).1.newBounds = s.newBounds
      ∧ (afterSwap s).1.contextAttached = s.contextAttached ∧ (afterSwap s).1.nvg = s.nvg := by
  unfold afterSwap
  cases hr : s.resizing <;> simp only [Bool.false_eq_true, if_false, if_true] <;> split <;> simp

theorem renderInvalidated_of_active (b : Backend) (env : Env) (s : Surface)
    (h : s.invalidArea.isEmpty = false) (ha : makeContextActive b env.activate1 s = true)
    (hf : s.invalidFBO.isSome = true) :
    (renderInvalidated b env s).1
      = { s with needsBufferSwap := true, invalidArea := ⟨0, 0, 0, 0⟩ } := by
  simp [renderInvalidated, h, ha, hf]

theorem renderInvalidated_of_isEmpty (b : Backend) (env : Env) (s : Surface)
    (h : s.invalidArea.isEmpty = true) : renderInvalidated b env s = (s, []) := by
  simp [renderInvalidated, h]

theorem renderInvalidated_of_inactive (b : Backend) (env : Env) (s : Surface)
    (h : makeContextActive b env.activate1 s = false) : renderInvalidated b env s = (s, []) := by
  simp [renderInvalidated, h]

theorem renderPresent_of_active (b : Backend) (env : Env) (s : Surface)
    (ha : makeContextActive b env.activate2 s = true) (hf : s.mainFBO.isSome = true) :
    (renderPresent b env s).1.needsBufferSwap = false
      ∧ (renderPresent b env s).1.invalidArea = s.invalidArea := by
  unfold renderPresent
  cases hn : s.needsBufferSwap
  · simp [hn]
  · cases b <;> simp [ha, hf, (afterSwap_fields s).1]

theorem renderPresent_of_inactive (b : Backend) (env : Env) (s : Surface)
    (h : makeContextActive b env.activate2 s = false) : renderPresent b env s = (s, []) := by
  simp [renderPresent, h]

theorem renderPresent_of_not_pending (b : Backend) (env : Env) (s : Surface)
    (h : s.needsBufferSwap = false) : renderPresent b env s = (s, []) := by
  simp [renderPresent, h]

theorem reinitialise_fields (env : Env) (s : Surface) :
    (reinitialise env s).1.bounds = s.bounds
      ∧ (reinitialise env s).1.needsBufferSwap = s.needsBufferSwap
      ∧ ((reinitialise env s).1.invalidArea = s.invalidArea
          ∨ (reinitialise env s).1.invalidArea = s.getLocalBounds) := by
  unfold reinitialise
  split <;> simp [initialise, invalidateAll, Surface.getLocalBounds]

theorem updateBufferSize_fields (env : Env) (s : Surface) :
    (updateBufferSize env s).1.bounds = s.bounds
      ∧ (updateBufferSize env s).1.needsBufferSwap = s.needsBufferSwap
      ∧ (updateBufferSize env s).1.contextAttached = s.contextAttached
      ∧ (updateBufferSize env s).1.nvg = s.nvg := by
  unfold updateBufferSize
  split <;> simp

theorem updateBufferSize_invalidArea (env : Env) (s : Surface) :
    (updateBufferSize env s).1.invalidArea
      = if needsNewFramebuffers env s then s.getLocalBounds else s.invalidArea := by
  unfold updateBufferSize
  split <;> simp

theorem passState_fields (env : Env) (s : Surface) :
    (passState env s).bounds = s.bounds
      ∧ (passState env s).needsBufferSwap = s.needsBufferSwap
      ∧ ((passState env s).invalidArea = s.invalidArea
          ∨ (passState env s).invalidArea = s.getLocalBounds) := by
  obtain ⟨r1, r2, r3⟩ := reinitialise_fields env s
  obtain ⟨u1, u2, -, -⟩ := updateBufferSize_fields env (reinitialise env s).1
  refine ⟨by rw [passState, u1, r1], by rw [passState, u2, r2], ?_⟩
  rw [passState, updateBufferSize_invalidArea]
  split
  · right; simp [Surface.getLocalBounds, r1]
  · exact r3

/-- C3, as stated, fails.  On either backend, a 100x100 surface with invalid
region `(10,10,5,5)` and a tick in which activation succeeds ends the tick with
the pending-swap flag false: the present pass of the same tick has swapped and
cleared it. -/
theorem c3_flag_false_when_render_returns :
    damagedSurface.invalidArea.isEmpty = false
      ∧ activationSucceeds Backend.gl goodEnv damagedSurface = true
      ∧ (render Backend.gl goodEnv damagedSurface).1.needsBufferSwap = false
      ∧ Op.swapBuffers ∈ (render Backend.gl goodEnv damagedSurface).2
      ∧ activationSucceeds Backend.metal goodEnv damagedSurface = true
      ∧ (render Backend.metal goodEnv damagedSurface).1.needsBufferSwap = false := by
  decide

theorem initialise_ops_not_draw (env : Env) (s : Surface) :
    ∀ op ∈ (initialise env s).2, op.isDrawOrSwap = false := by
  simp [initialise, Op.isDrawOrSwap]

theorem reinitialise_ops_not_draw (env : Env) (s : Surface) :
    ∀ op ∈ (reinitialise env s).2, op.isDrawOrSwap = false := by
  unfold reinitialise
  split
  · exact initialise_ops_not_draw env s
  · simp

theorem updateBufferSize_ops_not_draw (env : Env) (s : Surface) :
    ∀ op ∈ (updateBufferSize env s).2, op.isDrawOrSwap = false := by
  unfold updateBufferSize
  split
  · intro op hop
    simp only [List.mem_append, List.mem_cons, List.mem_singleton] at hop
    rcases hop with (hop | hop) | hop
    · split at hop
      · simp only [List.mem_singleton] at hop; rw [hop]; rfl
      · simp at hop
    · split at hop
      · simp only [List.mem_singleton] at hop; rw [hop]; rfl
      · simp at hop
    · rcases hop with rfl | rfl | hop
      · rfl
      · rfl
      · simp at hop
  · simp

theorem render_of_activationFails (b : Backend) (env : Env) (s : Surface)
    (hfail : activationFails b env s = true) :
    render b env s
      = (passState env s,
          (reinitialise env s).2 ++ (updateBufferSize env (reinitialise env s).1).2) := by
  simp only [activationFails, Bool.and_eq_true, Bool.not_eq_true'] at hfail
  obtain ⟨h1, h2⟩ := hfail
  have e1 := renderInvalidated_of_inactive b env _ h1
  have e2 := renderPresent_of_inactive b env _ h2
  have hc := renderInvalidated_not_crashed b env (passState env s) (Or.inr (Or.inr h1))
  apply Prod.ext
  · rw [render_fst b env s hc, e1, e2]
  · rw [render_snd b env s hc, e1, e2]; simp

/-- C4, as stated, fails.  A 100x100 surface with an empty invalid region whose
bounds have just been set to 200x100, on a GL tick in which `makeActive()`
fails: `updateBufferSize()` still runs, recreates the framebuffers and sets the
invalid region to `(0,0,200,100)`. -/
theorem c4_region_changes_without_activation :
    activationFails Backend.gl inactiveEnv grownSurface = true
      ∧ grownSurface.invalidArea = ⟨0, 0, 0, 0⟩
      ∧ (render Backend.gl inactiveEnv grownSurface).1.invalidArea = ⟨0, 0, 200, 100⟩
      ∧ (render Backend.gl inactiveEnv grownSurface).1.invalidArea
          ≠ grownSurface.invalidArea := by
  decide

/-- C4, amended.  For every surface state, if `makeContextActive()` fails
throughout a render tick, then when `render()` returns the pending-swap flag
has its value from before the tick and no drawing call and no buffer swap was
issued; the invalid region has its value from before the tick unless the tick
reinitialised the surface or `updateBufferSize()` recreated the framebuffers,
in which case it is the full local bounds. -/
theorem c4_failed_activation_skips_drawing (b : Backend) (env : Env) (s : Surface)
    (hfail : activationFails b env s = true) :
    (render b env s).1.needsBufferSwap = s.needsBufferSwap
      ∧ (∀ op ∈ (render b env s).2, op.isDrawOrSwap = false)
      ∧ ((!isAttached s && s.visible) = false →
          needsNewFramebuffers env s = false →
          (render b env s).1.invalidArea = s.invalidArea)
      ∧ (((!isAttached s && s.visible) = true
            ∨ needsNewFramebuffers env (reinitialise env s).1 = true) →
          (render b env s).1.invalidArea = s.getLocalBounds) := by
  rw [render_of_activationFails b env s hfail]
  refine ⟨(passState_fields env s).2.1, ?_, ?_, ?_⟩
  · intro op hop
    rcases List.mem_append.1 hop with h | h
    · exact reinitialise_ops_not_draw env s op h
    · exact updateBufferSize_ops_not_draw env _ op h
  · intro h1 h2
    have hr : reinitialise env s = (s, []) := by simp [reinitialise, h1]
    simp only [passState, hr, updateBufferSize_invalidArea, h2]
    simp
  · intro h
    simp only [passState, updateBufferSize_invalidArea]
    split
    · simp [Surface.getLocalBounds, (reinitialise_fields env s).1]
    · rename_i hn
      rcases h with h | h
      · simp [reinitialise, h, initialise, invalidateAll, Surface.getLocalBounds]
      · exact absurd h hn

/-- C4, amended, on a GL tick without activation: on a surface whose
framebuffers are current, a pending swap and the invalid region `(10,10,5,5)`
both survive the tick, and the tick issues no call at all. -/
theorem c4_failed_activation_skips_drawing_witness :
    activationFails Backend.gl inactiveEnv (triggerRepaint damagedSurface) = true
      ∧ (render Backend.gl inactiveEnv (triggerRepaint damagedSurface)).1.needsBufferSwap = true
      ∧ (∀ op ∈ (render Backend.gl inactiveEnv (triggerRepaint damagedSurface)).2,
          op.isDrawOrSwap = false)
      ∧ (render Backend.gl inactiveEnv (triggerRepaint damagedSurface)).1.invalidArea
          = ⟨10, 10, 5, 5⟩ :=
  have h := c4_failed_activation_skips_drawing Backend.gl inactiveEnv
    (triggerRepaint damagedSurface) (by decide)
  ⟨by decide, h.1, h.2.1, h.2.2.1 (by decide) (by decide)⟩

theorem recreatesFramebuffers_updateBufferSize (env : Env) (s : Surface) :
    recreatesFramebuffers (updateBufferSize env s).2 = needsNewFramebuffers env s := by
  unfold updateBufferSize
  split
  · rename_i h
    simp [recreatesFramebuffers, List.any_append, Op.isCreateFramebuffer, h]
  · rename_i h
    simp [recreatesFramebuffers] at h ⊢
    exact h

theorem needsNewFramebuffers_iff (env : Env) (s : Surface) :
    needsNewFramebuffers env s = true
      ↔ (s.fbWidth ≠ scaled s.getWidth env.pixelScale
          ∨ s.fbHeight ≠ scaled s.getHeight env.pixelScale ∨ s.mainFBO = none) := by
  simp [needsNewFramebuffers, or_assoc, Option.isNone_iff_eq_none]

/-- C5, as stated, fails.  A 100x100 surface with an empty invalid region and
the pending-swap flag false whose bounds have just been set to 200x100:
`render()` deletes and recreates both framebuffers, marks the whole surface
invalid, draws it and swaps buffers. -/
theorem c5_render_draws_after_size_change :
    grownSurface.invalidArea.isEmpty = true
      ∧ grownSurface.needsBufferSwap = false
      ∧ Op.deleteFramebuffer Target.mainFBO ∈ (render Backend.gl goodEnv grownSurface).2
      ∧ Op.createFramebuffer Target.mainFBO 200 100 ∈ (render Backend.gl goodEnv grownSurface).2
      ∧ Op.bindFramebuffer (some Target.invalidFBO) ∈ (render Backend.gl goodEnv grownSurface).2
      ∧ Op.beginFrame 200 100 ⟨1, 1⟩ ∈ (render Backend.gl goodEnv grownSurface).2
      ∧ Op.endFrame ∈ (render Backend.gl goodEnv grownSurface).2
      ∧ Op.swapBuffers ∈ (render Backend.gl goodEnv grownSurface).2 := by
  decide

/-- C5, amended.  For every surface state in which the invalid region is empty
and the pending-swap flag is false, and in which moreover the surface is
attached or not visible, the recorded framebuffer size is the size computed
from the current bounds and pixel scale and the main framebuffer exists,
`render()` issues no call at all (no
framebuffer created, deleted or bound, no frame begun or ended, no swap) and
leaves the state as it was. -/
theorem c5_idle_render_is_noop (b : Backend) (env : Env) (s : Surface)
    (hempty : s.invalidArea.isEmpty = true) (hflag : s.needsBufferSwap = false)
    (hinit : isAttached s = true ∨ s.visible = false)
    (hwidth : s.fbWidth = scaled s.getWidth env.pixelScale)
    (hheight : s.fbHeight = scaled s.getHeight env.pixelScale)
    (hmain : s.mainFBO.isSome = true) :
    render b env s = (s, []) := by
  have hfb : needsNewFramebuffers env s = false := by
    cases hm : s.mainFBO with
    | none => simp [hm] at hmain
    | some fb => simp [needsNewFramebuffers, hm, hwidth, hheight]
  have hr : reinitialise env s = (s, []) := by
    rcases hinit with h | h <;> simp [reinitialise, h]
  have hu : updateBufferSize env s = (s, []) := by simp [updateBufferSize, hfb]
  have hp : passState env s = s := by rw [passState, hr, hu]
  have hc : crashed (renderInvalidated b env (passState env s)).2 = false :=
    renderInvalidated_not_crashed b env _ (Or.inr (Or.inl (by rw [hp]; exact hempty)))
  apply Prod.ext
  · rw [render_fst b env s hc, hp, renderInvalidated_of_isEmpty b env s hempty,
      renderPresent_of_not_pending b env s hflag]
  · rw [render_snd b env s hc, hp, hr, hu, renderInvalidated_of_isEmpty b env s hempty,
      renderPresent_of_not_pending b env s hflag]
    rfl

/-- C5, amended, at an idle 100x100 surface on a GL tick. -/
theorem c5_idle_render_is_noop_witness :
    render Backend.gl goodEnv (idleSurface 100 100) = (idleSurface 100 100, []) :=
  c5_idle_render_is_noop Backend.gl goodEnv (idleSurface 100 100)
    (by decide) (by decide) (by decide) (by decide) (by decide) (by decide)

/-- C6, as stated, fails.  On a 100x100 surface at scale 1 whose recorded
framebuffer size is 100x100 but whose main framebuffer is absent (as after a
failed `nvgCreateFramebuffer`), the computed size equals the recorded one and
`updateBufferSize()` creates both framebuffers all the same. -/
theorem c6_recreated_at_equal_size :
    bareSurface.fbWidth = scaled bareSurface.getWidth goodEnv.pixelScale
      ∧ bareSurface.fbHeight = scaled bareSurface.getHeight goodEnv.pixelScale
      ∧ recreatesFramebuffers (updateBufferSize goodEnv bareSurface).2 = true
      ∧ (updateBufferSize goodEnv bareSurface).2
          = [Op.deleteFramebuffer Target.invalidFBO,
              Op.createFramebuffer Target.mainFBO 100 100,
              Op.createFramebuffer Target.invalidFBO 100 100] := by
  decide

/-- C6, amended.  For every surface state, `updateBufferSize()` deletes the
framebuffers that exist and creates both anew if and only if the framebuffer
size computed from the current logical bounds and pixel scale differs from the
recorded size (`fbWidth`, `fbHeight`) or the main framebuffer is absent;
otherwise it issues no call and changes nothing. -/
theorem c6_recreate_iff_size_differs_or_absent (env : Env) (s : Surface) :
    (recreatesFramebuffers (updateBufferSize env s).2 = true
        ↔ (s.fbWidth ≠ scaled s.getWidth env.pixelScale
            ∨ s.fbHeight ≠ scaled s.getHeight env.pixelScale ∨ s.mainFBO = none))
      ∧ (recreatesFramebuffers (updateBufferSize env s).2 = true →
          (updateBufferSize env s).2
              = (if s.invalidFBO.isSome then [Op.deleteFramebuffer Target.invalidFBO] else [])
                ++ (if s.mainFBO.isSome then [Op.deleteFramebuffer Target.mainFBO] else [])
                ++ [Op.createFramebuffer Target.mainFBO (scaled s.getWidth env.pixelScale)
                      (scaled s.getHeight env.pixelScale),
                    Op.createFramebuffer Target.invalidFBO (scaled s.getWidth env.pixelScale)
                      (scaled s.getHeight env.pixelScale)]
            ∧ (updateBufferSize env s).1.fbWidth = scaled s.getWidth env.pixelScale
            ∧ (updateBufferSize env s).1.fbHeight = scaled s.getHeight env.pixelScale)
      ∧ (recreatesFramebuffers (updateBufferSize env s).2 = false →
          updateBufferSize env s = (s, [])) := by
  rw [recreatesFramebuffers_updateBufferSize]
  refine ⟨needsNewFramebuffers_iff env s, ?_, ?_⟩
  · intro h
    simp [updateBufferSize, h]
  · intro h
    simp [updateBufferSize, h]

/-- C6, amended, at a 100x100 surface grown to 200x100: recorded 100x100,
computed 200x100, both framebuffers deleted and created at 200x100. -/
theorem c6_recreate_iff_size_differs_or_absent_witness :
    recreatesFramebuffers (updateBufferSize goodEnv grownSurface).2 = true
      ∧ (updateBufferSize goodEnv grownSurface).2
          = [Op.deleteFramebuffer Target.invalidFBO, Op.deleteFramebuffer Target.mainFBO,
              Op.createFramebuffer Target.mainFBO 200 100,
              Op.createFramebuffer Target.invalidFBO 200 100]
      ∧ updateBufferSize goodEnv (idleSurface 100 100) = (idleSurface 100 100, []) :=
  have h := c6_recreate_iff_size_differs_or_absent goodEnv grownSurface
  have h2 := c6_recreate_iff_size_differs_or_absent goodEnv (idleSurface 100 100)
  ⟨h.1.2 (Or.inl (by decide)), (h.2.1 (h.1.2 (Or.inl (by decide)))).1.trans (by decide),
    h2.2.2 (by decide)⟩

/-- C7.  Whenever `updateBufferSize()` recreates the framebuffers, the invalid
region afterwards is exactly the full local bounds `(0,0,width,height)`,
whatever it was before; whenever it does not, the invalid region is left
unchanged. -/
theorem c7_recreation_invalidates_everything (env : Env) (s : Surface) :
    (recreatesFramebuffers (updateBufferSize env s).2 = true →
        (updateBufferSize env s).1.invalidArea = ⟨0, 0, s.getWidth, s.getHeight⟩
          ∧ (updateBufferSize env s).1.invalidArea = (updateBufferSize env s).1.getLocalBounds)
      ∧ (recreatesFramebuffers (updateBufferSize env s).2 = false →
        (updateBufferSize env s).1.invalidArea = s.invalidArea) := by
  rw [recreatesFramebuffers_updateBufferSize]
  constructor
  · intro h
    simp [updateBufferSize, h, Surface.getLocalBounds, Surface.getWidth, Surface.getHeight]
  · intro h
    simp [updateBufferSize, h]

/-- C7 at two states: a 100x100 surface grown to 200x100 with `(10,10,5,5)`
invalid ends fully invalid; the same surface at its recorded size keeps
`(10,10,5,5)`. -/
theorem c7_recreation_invalidates_everything_witness :
    (updateBufferSize goodEnv (invalidateArea ⟨10, 10, 5, 5⟩ grownSurface)).1.invalidArea
        = ⟨0, 0, 200, 100⟩
      ∧ (updateBufferSize goodEnv damagedSurface).1.invalidArea = ⟨10, 10, 5, 5⟩ :=
  ⟨((c7_recreation_invalidates_everything goodEnv
        (invalidateArea ⟨10, 10, 5, 5⟩ grownSurface)).1 (by decide)).1.trans (by decide),
    ((c7_recreation_invalidates_everything goodEnv damagedSurface).2 (by decide)).trans
      (by decide)⟩

/-! ## Staggered resize on the GL backend -/

theorem updateBounds_gl_fields (target : Rectangle) (s : Surface) :
    (updateBounds Backend.gl target s).newBounds = target
      ∧ (updateBounds Backend.gl target s).resizing = true
      ∧ (updateBounds Backend.gl target s).hresize = s.hresize
      ∧ (updateBounds Backend.gl target s).needsBufferSwap = s.needsBufferSwap
      ∧ (updateBounds Backend.gl target s).timerRunning = s.timerRunning := by
  unfold updateBounds
  cases h : s.hresize <;> simp [Surface.setBounds, h]

theorem updateBounds_gl_bounds (target : Rectangle) (s : Surface) (hs : s.WellFormed) :
    (updateBounds Backend.gl target s).bounds
      = if s.hresize then ⟨target.x, target.y, max 0 target.w, s.bounds.h⟩
        else ⟨target.x, target.y, s.bounds.w, max 0 target.h⟩ := by
  obtain ⟨hw, hh⟩ := hs
  unfold updateBounds
  cases h : s.hresize <;>
    simp [Surface.setBounds, Surface.getWidth, Surface.getHeight, Rectangle.withWidth,
      Rectangle.withHeight, h, hw, hh]

/-- C8, as stated, fails for a negative requested size: a 100x100 surface whose
toggle selects the width, asked for a width of -5, ends with width 0 and not -5
(the height keeps its value); with the toggle selecting the height, a requested
height of -30 gives height 0. -/
theorem c8_negative_size_not_applied :
    widthFirstSurface.hresize = true
      ∧ (updateBounds Backend.gl ⟨0, 0, -5, 10⟩ widthFirstSurface).getWidth = 0
      ∧ (updateBounds Backend.gl ⟨0, 0, -5, 10⟩ widthFirstSurface).getWidth
          ≠ (⟨0, 0, -5, 10⟩ : Rectangle).w
      ∧ (updateBounds Backend.gl ⟨0, 0, -5, 10⟩ widthFirstSurface).getHeight = 100
      ∧ (idleSurface 100 100).hresize = false
      ∧ (updateBounds Backend.gl ⟨0, 0, 20, -30⟩ (idleSurface 100 100)).getHeight = 0
      ∧ (updateBounds Backend.gl ⟨0, 0, 20, -30⟩ (idleSurface 100 100)).getHeight
          ≠ (⟨0, 0, 20, -30⟩ : Rectangle).h := by
  decide

/-- C8, amended.  On the GL backend, for every current bounds (a component size
is never negative), every requested bounds and either value of the axis toggle,
one application of `updateBounds` changes at most one of width and height: with
`hresize` set the width becomes the requested width clamped below at zero (the
requested width itself whenever that is not negative) and the height keeps its
value, otherwise the height becomes the requested height clamped below at zero
and the width keeps its value. -/
theorem c8_one_axis_per_application (s : Surface) (bounds : Rectangle) (hs : s.WellFormed) :
    (s.hresize = true →
        (updateBounds Backend.gl bounds s).getWidth = max 0 bounds.w
          ∧ (0 ≤ bounds.w → (updateBounds Backend.gl bounds s).getWidth = bounds.w)
          ∧ (updateBounds Backend.gl bounds s).getHeight = s.getHeight)
      ∧ (s.hresize = false →
        (updateBounds Backend.gl bounds s).getHeight = max 0 bounds.h
          ∧ (0 ≤ bounds.h → (updateBounds Backend.gl bounds s).getHeight = bounds.h)
          ∧ (updateBounds Backend.gl bounds s).getWidth = s.getWidth)
      ∧ ((updateBounds Backend.gl bounds s).getWidth = s.getWidth
          ∨ (updateBounds Backend.gl bounds s).getHeight = s.getHeight) := by
  have hb := updateBounds_gl_bounds bounds s hs
  simp only [Surface.getWidth, Surface.getHeight, hb]
  cases h : s.hresize <;> simp

/-- C8 at the scenario of the specification: a 100x100 surface asked for
200x150 becomes 200x100 when the toggle selects the width and 100x150 when it
selects the height. -/
theorem c8_one_axis_per_application_witness :
    widthFirstSurface.WellFormed
      ∧ (updateBounds Backend.gl ⟨0, 0, 200, 150⟩ widthFirstSurface).bounds = ⟨0, 0, 200, 100⟩
      ∧ (updateBounds Backend.gl ⟨0, 0, 200, 150⟩ (idleSurface 100 100)).bounds
          = ⟨0, 0, 100, 150⟩
      ∧ (updateBounds Backend.gl ⟨0, 0, 200, 150⟩ widthFirstSurface).getWidth = 200
      ∧ (updateBounds Backend.gl ⟨0, 0, 200, 150⟩ widthFirstSurface).getHeight
          = widthFirstSurface.getHeight :=
  have h := c8_one_axis_per_application widthFirstSurface ⟨0, 0, 200, 150⟩ (by decide)
  ⟨by decide, by decide, by decide, ((h.1 rfl).2.1 (by decide)), (h.1 rfl).2.2⟩

theorem reinitialise_resize_fields (env : Env) (s : Surface) :
    (reinitialise env s).1.newBounds = s.newBounds
      ∧ (reinitialise env s).1.hresize = s.hresize
      ∧ (reinitialise env s).1.resizing = s.resizing
      ∧ (reinitialise env s).1.timerRunning = s.timerRunning := by
  unfold reinitialise
  split <;> simp [initialise, invalidateAll]

theorem updateBufferSize_resize_fields (env : Env) (s : Surface) :
    (updateBufferSize env s).1.newBounds = s.newBounds
      ∧ (updateBufferSize env s).1.hresize = s.hresize
      ∧ (updateBufferSize env s).1.resizing = s.resizing
      ∧ (updateBufferSize env s).1.timerRunning = s.timerRunning := by
  unfold updateBufferSize
  split <;> simp

theorem passState_resize_fields (env : Env) (s : Surface) :
    (passState env s).newBounds = s.newBounds
      ∧ (passState env s).hresize = s.hresize
      ∧ (passState env s).resizing = s.resizing
      ∧ (passState env s).timerRunning = s.timerRunning := by
  obtain ⟨r1, r2, r3, r4⟩ := reinitialise_resize_fields env s
  obtain ⟨u1, u2, u3, u4⟩ := updateBufferSize_resize_fields env (reinitialise env s).1
  exact ⟨by rw [passState, u1, r1], by rw [passState, u2, r2], by rw [passState, u3, r3],
    by rw [passState, u4, r4]⟩

theorem renderInvalidated_resize_fields (b : Backend) (env : Env) (s : Surface) :
    (renderInvalidated b env s).1.bounds = s.bounds
      ∧ (renderInvalidated b env s).1.newBounds = s.newBounds
      ∧ (renderInvalidated b env s).1.hresize = s.hresize
      ∧ (renderInvalidated b env s).1.resizing = s.resizing
      ∧ (renderInvalidated b env s).1.timerRunning = s.timerRunning := by
  unfold renderInvalidated
  split
  · split <;> simp
  · simp

theorem renderPresent_bounds (b : Backend) (env : Env) (s : Surface) :
    (renderPresent b env s).1.bounds = s.bounds
      ∧ (renderPresent b env s).1.newBounds = s.newBounds := by
  unfold renderPresent
  obtain ⟨-, a2, a3, -, -⟩ := afterSwap_fields s
  split
  · split
    · cases b <;> simp [a2, a3]
    · simp
  · simp

theorem render_bounds (b : Backend) (env : Env) (s : Surface) :
    (render b env s).1.bounds = s.bounds ∧ (render b env s).1.newBounds = s.newBounds := by
  obtain ⟨p1, p2⟩ := renderPresent_bounds b env (renderInvalidated b env (passState env s)).1
  obtain ⟨i1, i2, -, -, -⟩ := renderInvalidated_resize_fields b env (passState env s)
  cases hc : crashed (renderInvalidated b env (passState env s)).2
  · rw [render_fst b env s hc]
    exact ⟨by rw [p1, i1, (passState_fields env s).1],
      by rw [p2, i2, (passState_resize_fields env s).1]⟩
  · rw [render_fst_of_crashed b env s hc]
    exact ⟨by rw [i1, (passState_fields env s).1],
      by rw [i2, (passState_resize_fields env s).1]⟩

theorem afterSwap_resize (s : Surface) :
    (afterSwap s).1.hresize = (if s.resizing then !s.hresize else s.hresize)
      ∧ (afterSwap s).1.resizing = false
      ∧ (afterSwap s).1.timerRunning
          = (if s.bounds = s.newBounds then s.timerRunning else true) := by
  unfold afterSwap
  cases hr : s.resizing <;> by_cases hb : s.bounds = s.newBounds <;> simp [hr, hb]

/-- C9 fails at this input.  A 100x100 surface with current framebuffers, nothing
invalid, nothing pending and the toggle on the width is asked for 100x150.
`updateBounds` applies the width (unchanged) and stores the request; no tick
presents a frame, so the toggle never flips and the timer never starts: the
state is a fixed point of the tick and the height stays 100, however many
ticks run. -/
theorem c9_no_convergence_without_present :
    (widthFirstSurface.WellFormed ∧ goodEnv.activate1 = true ∧ goodEnv.activate2 = true)
      ∧ (updateBounds Backend.gl ⟨0, 0, 100, 150⟩ widthFirstSurface).bounds = ⟨0, 0, 100, 100⟩
      ∧ (updateBounds Backend.gl ⟨0, 0, 100, 150⟩ widthFirstSurface).newBounds
          = ⟨0, 0, 100, 150⟩
      ∧ (render Backend.gl goodEnv
          (updateBounds Backend.gl ⟨0, 0, 100, 150⟩ widthFirstSurface)).2 = []
      ∧ tick goodEnv (updateBounds Backend.gl ⟨0, 0, 100, 150⟩ widthFirstSurface)
          = updateBounds Backend.gl ⟨0, 0, 100, 150⟩ widthFirstSurface
      ∧ ¬ ∃ n : Nat,
          (runTicks (List.replicate n goodEnv)
            (updateBounds Backend.gl ⟨0, 0, 100, 150⟩ widthFirstSurface)).bounds
            = ⟨0, 0, 100, 150⟩ := by
  have hfix : tick goodEnv (updateBounds Backend.gl ⟨0, 0, 100, 150⟩ widthFirstSurface)
      = updateBounds Backend.gl ⟨0, 0, 100, 150⟩ widthFirstSurface := by decide
  have hcr : crashed (render Backend.gl goodEnv
      (updateBounds Backend.gl ⟨0, 0, 100, 150⟩ widthFirstSurface)).2 = false := by decide
  refine ⟨by decide, by decide, by decide, by decide, hfix, ?_⟩
  rintro ⟨n, hn⟩
  have hrun : ∀ k : Nat, runTicks (List.replicate k goodEnv)
      (updateBounds Backend.gl ⟨0, 0, 100, 150⟩ widthFirstSurface)
      = updateBounds Backend.gl ⟨0, 0, 100, 150⟩ widthFirstSurface := by
    intro k
    induction k with
    | zero => rfl
    | succ k ih =>
      rw [List.replicate_succ]
      simp only [runTicks, hcr, hfix, Bool.false_eq_true, if_false]
      exact ih
  rw [hrun n] at hn
  exact absurd hn (by decide)

/-- C11, as stated, fails.  On a converged, idle 100x100 GL surface (bounds
equal to the stored target, resizing marker false), `updateBounds` with the
same rectangle sets the resizing marker to true, directly and through
`timerCallback`; the next swap then negates the axis toggle. -/
theorem c11_redundant_application_sets_resizing :
    ((idleSurface 100 100).bounds = ⟨0, 0, 100, 100⟩
        ∧ (idleSurface 100 100).newBounds = ⟨0, 0, 100, 100⟩
        ∧ (idleSurface 100 100).resizing = false)
      ∧ (updateBounds Backend.gl ⟨0, 0, 100, 100⟩ (idleSurface 100 100)).resizing = true
      ∧ (timerCallback (idleSurface 100 100)).resizing = true
      ∧ (updateBounds Backend.gl ⟨0, 0, 100, 100⟩ (idleSurface 100 100)).resizing
          ≠ (idleSurface 100 100).resizing := by
  decide

/-- C11, amended.  On the GL backend, when the surface bounds already equal the
target, applying `updateBounds(target)` again, directly or through
`timerCallback`, leaves the current bounds and the axis toggle at their
previous values and the stored target equal to the target; the resizing marker
is set to true whatever it was, and `timerCallback` also stops the timer. -/
theorem c11_redundant_application (s : Surface) (target : Rectangle) (hs : s.WellFormed)
    (hb : s.bounds = target) :
    ((updateBounds Backend.gl target s).bounds = s.bounds
        ∧ (updateBounds Backend.gl target s).newBounds = target
        ∧ (updateBounds Backend.gl target s).hresize = s.hresize
        ∧ (updateBounds Backend.gl target s).resizing = true)
      ∧ (s.newBounds = target →
          (timerCallback s).bounds = s.bounds
            ∧ (timerCallback s).newBounds = s.newBounds
            ∧ (timerCallback s).hresize = s.hresize
            ∧ (timerCallback s).resizing = true
            ∧ (timerCallback s).timerRunning = false) := by
  obtain ⟨f1, f2, f3, -, -⟩ := updateBounds_gl_fields target s
  have hbounds : (updateBounds Backend.gl target s).bounds = s.bounds := by
    rw [updateBounds_gl_bounds target s hs, ← hb]
    obtain ⟨hw, hh⟩ := hs
    have e1 : max 0 s.bounds.w = s.bounds.w := by omega
    have e2 : max 0 s.bounds.h = s.bounds.h := by omega
    rw [e1, e2]
    split <;> rfl
  refine ⟨⟨hbounds, f1, f3, f2⟩, ?_⟩
  intro hn
  have hconv : (updateBounds Backend.gl target s).bounds
      = (updateBounds Backend.gl target s).newBounds := by rw [hbounds, f1, hb]
  have ht : timerCallback s
      = { updateBounds Backend.gl target s with timerRunning := false } := by
    simp only [timerCallback, hn]
    rw [if_pos hconv]
  rw [ht]
  exact ⟨hbounds, by rw [hn]; exact f1, f3, f2, rfl⟩

/-- C11, amended, at a converged 100x100 surface whose resizing marker is
false. -/
theorem c11_redundant_application_witness :
    ((idleSurface 100 100).WellFormed ∧ (idleSurface 100 100).bounds = ⟨0, 0, 100, 100⟩)
      ∧ (updateBounds Backend.gl ⟨0, 0, 100, 100⟩ (idleSurface 100 100)).bounds
          = (idleSurface 100 100).bounds
      ∧ (updateBounds Backend.gl ⟨0, 0, 100, 100⟩ (idleSurface 100 100)).resizing = true
      ∧ (timerCallback (idleSurface 100 100)).bounds = (idleSurface 100 100).bounds
      ∧ (timerCallback (idleSurface 100 100)).timerRunning = false :=
  have h := c11_redundant_application (idleSurface 100 100) ⟨0, 0, 100, 100⟩
    (by decide) (by decide)
  ⟨by decide, h.1.1, h.1.2.2.2, (h.2 (by decide)).1, (h.2 (by decide)).2.2.2.2⟩

/-- C12, as stated, fails for a negative requested size: on Metal a 100x100
surface asked for (5, 7, -20, -30) ends with bounds (5, 7, 0, 0), not with the
request. -/
theorem c12_negative_size_not_applied :
    (updateBounds Backend.metal ⟨5, 7, -20, -30⟩ (idleSurface 100 100)).bounds
        = ⟨5, 7, 0, 0⟩
      ∧ (updateBounds Backend.metal ⟨5, 7, -20, -30⟩ (idleSurface 100 100)).bounds
        ≠ ⟨5, 7, -20, -30⟩ := by
  decide

/-- C12, amended.  On the Metal backend, for every state and every requested
bounds, `updateBounds` applies both axes in the one call: the bounds become the
request with each negative size clamped to zero (exactly the request whenever
its sizes are not negative).  The axis toggle, the resizing marker and the
stored target keep their values, and the result does not depend on them. -/
theorem c12_metal_applies_whole_request (s : Surface) (bounds : Rectangle) :
    (updateBounds Backend.metal bounds s).bounds
        = ⟨bounds.x, bounds.y, max 0 bounds.w, max 0 bounds.h⟩
      ∧ (0 ≤ bounds.w → 0 ≤ bounds.h → (updateBounds Backend.metal bounds s).bounds = bounds)
      ∧ (updateBounds Backend.metal bounds s).hresize = s.hresize
      ∧ (updateBounds Backend.metal bounds s).resizing = s.resizing
      ∧ (updateBounds Backend.metal bounds s).newBounds = s.newBounds
      ∧ ∀ (toggle marker : Bool) (stored : Rectangle),
          updateBounds Backend.metal bounds
              { s with hresize := toggle, resizing := marker, newBounds := stored }
            = { updateBounds Backend.metal bounds s with
                hresize := toggle, resizing := marker, newBounds := stored } := by
  refine ⟨rfl, ?_, rfl, rfl, rfl, fun _ _ _ => rfl⟩
  intro hw hh
  cases bounds
  simp only [updateBounds, Surface.setBounds] at *
  simp [hw, hh]

/-- C12 at the scenario of the specification: a 100x100 surface asked for
200x150 on Metal is 200x150 after the one call, whatever the toggle. -/
theorem c12_metal_applies_whole_request_witness :
    (updateBounds Backend.metal ⟨0, 0, 200, 150⟩ (idleSurface 100 100)).bounds
        = ⟨0, 0, 200, 150⟩
      ∧ (updateBounds Backend.metal ⟨0, 0, 200, 150⟩ widthFirstSurface).bounds
        = ⟨0, 0, 200, 150⟩ :=
  ⟨(c12_metal_applies_whole_request (idleSurface 100 100) ⟨0, 0, 200, 150⟩).2.1
      (by decide) (by decide),
    (c12_metal_applies_whole_request widthFirstSurface ⟨0, 0, 200, 150⟩).2.1
      (by decide) (by decide)⟩

/-! ## Counting presents in a tick -/

theorem reinitialise_counts (env : Env) (s : Surface) :
    (reinitialise env s).2.countP Op.isSwap = 0
      ∧ (reinitialise env s).2.countP Op.isCompositeMain = 0 := by
  unfold reinitialise
  split <;> simp [initialise, List.countP_cons, Op.isSwap, Op.isCompositeMain]

theorem updateBufferSize_counts (env : Env) (s : Surface) :
    (updateBufferSize env s).2.countP Op.isSwap = 0
      ∧ (updateBufferSize env s).2.countP Op.isCompositeMain = 0 := by
  unfold updateBufferSize
  split
  · cases s.invalidFBO <;> cases s.mainFBO <;>
      simp [List.countP_cons, List.countP_append, Op.isSwap, Op.isCompositeMain]
  · simp

theorem renderInvalidated_counts (b : Backend) (env : Env) (s : Surface) :
    (renderInvalidated b env s).2.countP Op.isSwap = 0
      ∧ (renderInvalidated b env s).2.countP Op.isCompositeMain = 0 := by
  unfold renderInvalidated
  split
  · split <;> simp [List.countP_cons, Op.isSwap, Op.isCompositeMain]
  · simp

theorem afterSwap_counts (s : Surface) :
    (afterSwap s).2.countP Op.isSwap = 0 ∧ (afterSwap s).2.countP Op.isCompositeMain = 0 := by
  unfold afterSwap
  cases hr : s.resizing <;> by_cases hb : s.bounds = s.newBounds <;>
    simp [hr, hb, List.countP_cons, Op.isSwap, Op.isCompositeMain]

theorem renderPresent_counts (b : Backend) (env : Env) (s : Surface)
    (hflag : s.needsBufferSwap = true) (ha : makeContextActive b env.activate2 s = true)
    (hf : s.mainFBO.isSome = true) :
    (renderPresent b env s).2.countP Op.isCompositeMain = 1
      ∧ (renderPresent b env s).2.countP Op.isSwap = (if b = Backend.gl then 1 else 0) := by
  obtain ⟨a1, a2⟩ := afterSwap_counts s
  unfold renderPresent
  rw [hflag, ha, hf]
  cases b <;> cases env.pluginMode <;>
    simp [List.countP_cons, List.countP_append, Op.isSwap, Op.isCompositeMain, a1, a2]

theorem renderInvalidated_keeps_flag (b : Backend) (env : Env) (s : Surface)
    (h : s.needsBufferSwap = true) : (renderInvalidated b env s).1.needsBufferSwap = true := by
  unfold renderInvalidated
  split
  · split <;> simp [h]
  · simp [h]

theorem renderInvalidated_context (b : Backend) (env : Env) (s : Surface) :
    (renderInvalidated b env s).1.contextAttached = s.contextAttached
      ∧ (renderInvalidated b env s).1.nvg = s.nvg := by
  unfold renderInvalidated
  split
  · split <;> simp
  · simp

theorem renderInvalidated_keeps_framebuffers (b : Backend) (env : Env) (s : Surface) :
    (renderInvalidated b env s).1.mainFBO = s.mainFBO
      ∧ (renderInvalidated b env s).1.invalidFBO = s.invalidFBO := by
  unfold renderInvalidated
  split
  · split <;> simp
  · simp

/-- A tick with nothing invalid, nothing pending, no reinitialisation and
current framebuffers changes nothing and issues no call. -/
theorem render_of_idle (b : Backend) (env : Env) (s : Surface)
    (hempty : s.invalidArea.isEmpty = true) (hflag : s.needsBufferSwap = false)
    (hinit : (!isAttached s && s.visible) = false)
    (hfb : needsNewFramebuffers env s = false) :
    render b env s = (s, []) := by
  have hr : reinitialise env s = (s, []) := by simp [reinitialise, hinit]
  have hu : updateBufferSize env s = (s, []) := by simp [updateBufferSize, hfb]
  have hp : passState env s = s := by rw [passState, hr, hu]
  have hc : crashed (renderInvalidated b env (passState env s)).2 = false :=
    renderInvalidated_not_crashed b env _ (Or.inr (Or.inl (by rw [hp]; exact hempty)))
  apply Prod.ext
  · rw [render_fst b env s hc, hp, renderInvalidated_of_isEmpty b env s hempty,
      renderPresent_of_not_pending b env s hflag]
  · rw [render_snd b env s hc, hp, hr, hu, renderInvalidated_of_isEmpty b env s hempty,
      renderPresent_of_not_pending b env s hflag]
    rfl

/-- C13, as stated, fails in its last part.  A 100x100 surface with an empty
invalid region and the pending-swap flag false whose bounds have just been set
to 200x100: without any `triggerRepaint()`, the next tick recreates the
framebuffers, invalidates everything, and composites and swaps once. -/
theorem c13_swap_without_triggerRepaint :
    grownSurface.invalidArea.isEmpty = true
      ∧ grownSurface.needsBufferSwap = false
      ∧ activationSucceeds Backend.gl goodEnv grownSurface = true
      ∧ (render Backend.gl goodEnv grownSurface).2.countP Op.isSwap = 1
      ∧ (render Backend.gl goodEnv grownSurface).2.countP Op.isCompositeMain = 1 := by
  decide

/-- C13, amended.  For every surface state with an empty invalid region, after
`triggerRepaint()` the next `render()` tick in which context activation
succeeds and both framebuffers are non-null when the passes run composites the
main target to the screen exactly once (with exactly one `swapBuffers` on GL,
where the swap is a call of its own) and returns with the pending-swap flag
false.  Without `triggerRepaint()` and with the flag false, no composite and no
swap occurs provided the tick neither reinitialises the surface nor recreates
the framebuffers. -/
theorem c13_repaint_presents_once (b : Backend) (env : Env) (s : Surface)
    (hempty : s.invalidArea.isEmpty = true)
    (hact : activationSucceeds b env (triggerRepaint s) = true)
    (hlive : framebuffersLive env (triggerRepaint s) = true) :
    (render b env (triggerRepaint s)).2.countP Op.isCompositeMain = 1
      ∧ (render b env (triggerRepaint s)).2.countP Op.isSwap
          = (if b = Backend.gl then 1 else 0)
      ∧ (render b env (triggerRepaint s)).1.needsBufferSwap = false
      ∧ (s.needsBufferSwap = false → (!isAttached s && s.visible) = false →
          needsNewFramebuffers env s = false →
          (render b env s).2.countP Op.isCompositeMain = 0
            ∧ (render b env s).2.countP Op.isSwap = 0) := by
  simp only [activationSucceeds, Bool.and_eq_true] at hact
  obtain ⟨-, h2⟩ := hact
  have hflag0 : (passState env (triggerRepaint s)).needsBufferSwap = true := by
    rw [(passState_fields env (triggerRepaint s)).2.1]
    rfl
  have hflag := renderInvalidated_keeps_flag b env _ hflag0
  obtain ⟨k1, k2⟩ := renderInvalidated_context b env (passState env (triggerRepaint s))
  have h2q : makeContextActive b env.activate2
      (renderInvalidated b env (passState env (triggerRepaint s))).1 = true := by
    rw [makeContextActive_congr b _ (passState env (triggerRepaint s)) _ k1 k2]
    exact h2
  simp only [framebuffersLive, Bool.and_eq_true] at hlive
  obtain ⟨hm, hi⟩ := hlive
  have hc := renderInvalidated_not_crashed b env (passState env (triggerRepaint s)) (Or.inl hi)
  have hmq : (renderInvalidated b env (passState env (triggerRepaint s))).1.mainFBO.isSome
      = true := by
    rw [(renderInvalidated_keeps_framebuffers b env (passState env (triggerRepaint s))).1]
    exact hm
  obtain ⟨p1, p2⟩ := renderPresent_counts b env _ hflag h2q hmq
  obtain ⟨r1, r2⟩ := reinitialise_counts env (triggerRepaint s)
  obtain ⟨u1, u2⟩ := updateBufferSize_counts env (reinitialise env (triggerRepaint s)).1
  obtain ⟨i1, i2⟩ := renderInvalidated_counts b env (passState env (triggerRepaint s))
  refine ⟨?_, ?_, ?_, ?_⟩
  · rw [render_snd b env _ hc]
    simp only [List.countP_append, r2, u2, i2, p1]
  · rw [render_snd b env _ hc]
    simp only [List.countP_append, r1, u1, i1, p2]
    simp
  · rw [render_fst b env _ hc]
    exact (renderPresent_of_active b env _ h2q hmq).1
  · intro hf hinit hfb
    rw [render_of_idle b env s hempty hf hinit hfb]
    simp

/-- C13, amended, at an idle 100x100 surface on GL: with `triggerRepaint()`
one composite and one swap, without it none. -/
theorem c13_repaint_presents_once_witness :
    ((idleSurface 100 100).invalidArea.isEmpty = true
        ∧ activationSucceeds Backend.gl goodEnv (triggerRepaint (idleSurface 100 100)) = true
        ∧ framebuffersLive goodEnv (triggerRepaint (idleSurface 100 100)) = true)
      ∧ (render Backend.gl goodEnv (triggerRepaint (idleSurface 100 100))).2.countP
          Op.isCompositeMain = 1
      ∧ (render Backend.gl goodEnv (triggerRepaint (idleSurface 100 100))).2.countP Op.isSwap
          = 1
      ∧ (render Backend.gl goodEnv (triggerRepaint (idleSurface 100 100))).1.needsBufferSwap
          = false
      ∧ (render Backend.gl goodEnv (idleSurface 100 100)).2.countP Op.isSwap = 0 :=
  have h := c13_repaint_presents_once Backend.gl goodEnv (idleSurface 100 100)
    (by decide) (by decide) (by decide)
  ⟨by decide, h.1, h.2.1.trans (by decide), h.2.2.1,
    (h.2.2.2 (by decide) (by decide) (by decide)).2⟩

/-- C3, amended.  For every surface state whose invalid region is non-empty
and every tick in which both context activations succeed and both framebuffers
are non-null when the passes run: when `render()` returns, the invalid region is
empty and the pending-swap flag is false.  The flag is true in between: when
the surface has a non-empty size, the invalidated-region pass leaves the region
exactly `(0,0,0,0)` and the flag true, and the present pass of the same tick
then composites the main target to the screen exactly once, swaps (exactly one
`swapBuffers` on GL, where the swap is a call of its own; none on Metal) and
clears the flag. -/
theorem c3_region_flushed_and_presented (b : Backend) (env : Env) (s : Surface)
    (hne : s.invalidArea.isEmpty = false) (hact : activationSucceeds b env s = true)
    (hfb : framebuffersLive env s = true) :
    (render b env s).1.invalidArea.isEmpty = true
      ∧ (render b env s).1.needsBufferSwap = false
      ∧ (s.getLocalBounds.isEmpty = false →
          (renderInvalidated b env (passState env s)).1.invalidArea = ⟨0, 0, 0, 0⟩
            ∧ (renderInvalidated b env (passState env s)).1.needsBufferSwap = true
            ∧ (render b env s).1.invalidArea = ⟨0, 0, 0, 0⟩
            ∧ (render b env s).2.countP Op.isCompositeMain = 1
            ∧ (render b env s).2.countP Op.isSwap = (if b = Backend.gl then 1 else 0)
            ∧ (b = Backend.gl → Op.swapBuffers ∈ (render b env s).2)) := by
  simp only [activationSucceeds, Bool.and_eq_true] at hact
  obtain ⟨h1, h2⟩ := hact
  simp only [framebuffersLive, Bool.and_eq_true] at hfb
  obtain ⟨hm, hi⟩ := hfb
  have hc := renderInvalidated_not_crashed b env (passState env s) (Or.inl hi)
  obtain ⟨k1, k2⟩ := renderInvalidated_context b env (passState env s)
  have h2q : makeContextActive b env.activate2 (renderInvalidated b env (passState env s)).1
      = true := by
    rw [makeContextActive_congr b _ (passState env s) _ k1 k2]
    exact h2
  have hmq : (renderInvalidated b env (passState env s)).1.mainFBO.isSome = true := by
    rw [(renderInvalidated_keeps_framebuffers b env (passState env s)).1]
    exact hm
  obtain ⟨e1, e2⟩ := renderPresent_of_active b env _ h2q hmq
  rw [render_fst b env s hc, render_snd b env s hc, e1, e2]
  cases hp : (passState env s).invalidArea.isEmpty
  · have hq := renderInvalidated_of_active b env _ hp h1 hi
    have hflag : (renderInvalidated b env (passState env s)).1.needsBufferSwap = true := by
      rw [hq]
    obtain ⟨p1, p2⟩ := renderPresent_counts b env _ hflag h2q hmq
    obtain ⟨r1, r2⟩ := reinitialise_counts env s
    obtain ⟨u1, u2⟩ := updateBufferSize_counts env (reinitialise env s).1
    obtain ⟨i1, i2⟩ := renderInvalidated_counts b env (passState env s)
    have hcount : ((reinitialise env s).2 ++ (updateBufferSize env (reinitialise env s).1).2
        ++ (renderInvalidated b env (passState env s)).2
        ++ (renderPresent b env (renderInvalidated b env (passState env s)).1).2).countP
          Op.isSwap = (if b = Backend.gl then 1 else 0) := by
      simp only [List.countP_append, r1, u1, i1, p2]
      simp
    refine ⟨by rw [hq]; rfl, rfl, fun _ => ⟨by rw [hq], hflag, by rw [hq], ?_, hcount, ?_⟩⟩
    · simp only [List.countP_append, r2, u2, i2, p1]
    · intro hb
      rw [hb] at hcount
      have hpos : 0 < ((reinitialise env s).2 ++ (updateBufferSize env (reinitialise env s).1).2
        ++ (renderInvalidated Backend.gl env (passState env s)).2
        ++ (renderPresent Backend.gl env
            (renderInvalidated Backend.gl env (passState env s)).1).2).countP Op.isSwap := by
        rw [hcount]; decide
      obtain ⟨op, hop, hsw⟩ := List.countP_pos_iff.1 hpos
      rw [hb]
      cases op <;> simp [Op.isSwap] at hsw
      exact hop
  · rw [renderInvalidated_of_isEmpty b env _ hp]
    refine ⟨hp, rfl, ?_⟩
    intro hl
    rcases (passState_fields env s).2.2 with h | h
    · rw [h, hne] at hp; exact absurd hp (by decide)
    · rw [h, hl] at hp; exact absurd hp (by decide)

/-- C3, amended, at a 100x100 surface with invalid region `(10,10,5,5)` on the
GL backend. -/
theorem c3_region_flushed_and_presented_witness :
    (damagedSurface.invalidArea.isEmpty = false
        ∧ activationSucceeds Backend.gl goodEnv damagedSurface = true
        ∧ framebuffersLive goodEnv damagedSurface = true)
      ∧ (render Backend.gl goodEnv damagedSurface).1.invalidArea.isEmpty = true
      ∧ (render Backend.gl goodEnv damagedSurface).1.needsBufferSwap = false
      ∧ (renderInvalidated Backend.gl goodEnv
            (passState goodEnv damagedSurface)).1.needsBufferSwap = true
      ∧ (render Backend.gl goodEnv damagedSurface).1.invalidArea = ⟨0, 0, 0, 0⟩
      ∧ (render Backend.gl goodEnv damagedSurface).2.countP Op.isCompositeMain = 1
      ∧ Op.swapBuffers ∈ (render Backend.gl goodEnv damagedSurface).2 :=
  have h := c3_region_flushed_and_presented Backend.gl goodEnv damagedSurface
    (by decide) (by decide) (by decide)
  ⟨by decide, h.1, h.2.1, (h.2.2 (by decide)).2.1, (h.2.2 (by decide)).2.2.1,
    (h.2.2 (by decide)).2.2.2.1, (h.2.2 (by decide)).2.2.2.2.2 rfl⟩

/-! ## Growth of the invalid region -/

theorem Rectangle.getUnion_containsPoint (r other : Rectangle) (px py : Int)
    (h : r.containsPoint px py = true) : (r.getUnion other).containsPoint px py = true := by
  simp only [Rectangle.containsPoint, Bool.and_eq_true, decide_eq_true_eq] at h
  obtain ⟨⟨⟨h1, h2⟩, h3⟩, h4⟩ := h
  unfold Rectangle.getUnion
  split
  · simp [Rectangle.containsPoint, h1, h2, h3, h4]
  · split
    · rename_i hr
      simp only [Rectangle.isEmpty, Bool.or_eq_true, decide_eq_true_eq] at hr
      omega
    · simp only [Rectangle.containsPoint, Bool.and_eq_true, decide_eq_true_eq]
      refine ⟨⟨⟨?_, ?_⟩, ?_⟩, ?_⟩ <;> omega

/-- C14, as stated, fails.  `invalidateAll()` and the recreation in
`updateBufferSize()` replace the invalid region by the local bounds.  On a
100x100 surface the region `(90,90,20,20)` holds the point `(105,105)`, which
the region after `invalidateAll()` does not; on a surface shrunk from 200x100
to 100x100 the region `(150,10,5,5)` holds `(150,10)`, which the region after
`updateBufferSize()` does not; and on a surface shrunk to 0x100 the non-empty
region `(150,10,5,5)` becomes the empty `(0,0,0,100)` outside any render
pass. -/
theorem c14_region_replaced_by_local_bounds :
    (overhangSurface.invalidArea.containsPoint 105 105 = true
        ∧ (invalidateAll overhangSurface).invalidArea.containsPoint 105 105 = false)
      ∧ (shrunkSurface.invalidArea.containsPoint 150 10 = true
        ∧ (updateBufferSize goodEnv shrunkSurface).1.invalidArea.containsPoint 150 10 = false)
      ∧ (collapsedSurface.invalidArea.isEmpty = false
        ∧ (updateBufferSize goodEnv collapsedSurface).1.invalidArea = ⟨0, 0, 0, 100⟩
        ∧ (updateBufferSize goodEnv collapsedSurface).1.invalidArea.isEmpty = true
        ∧ (invalidateAll collapsedSurface).invalidArea.isEmpty = true) := by
  decide

/-- C14, amended.  For every state: `invalidateArea(r)` leaves an invalid
region that contains every point of the region held before, and never empties
a non-empty region; `invalidateAll()` and a recreation in `updateBufferSize()`
set the region to the full local bounds, which contains every point of the
previous region that lies inside the surface and is non-empty whenever the
surface size is; `updateBufferSize()` without recreation leaves the region
unchanged; and the invalidated-region pass of `render()`, run with a non-null
scratch framebuffer, resets a non-empty region to `(0,0,0,0)`. -/
theorem c14_region_growth (b : Backend) (env : Env) (s : Surface) (r : Rectangle) :
    (∀ px py : Int, s.invalidArea.containsPoint px py = true →
        (invalidateArea r s).invalidArea.containsPoint px py = true)
      ∧ (s.invalidArea.isEmpty = false → (invalidateArea r s).invalidArea.isEmpty = false)
      ∧ (∀ px py : Int, s.invalidArea.containsPoint px py = true →
          s.getLocalBounds.containsPoint px py = true →
          (invalidateAll s).invalidArea.containsPoint px py = true
            ∧ (updateBufferSize env s).1.invalidArea.containsPoint px py = true)
      ∧ (s.getLocalBounds.isEmpty = false → (invalidateAll s).invalidArea.isEmpty = false)
      ∧ (s.invalidArea.isEmpty = false → s.getLocalBounds.isEmpty = false →
          (updateBufferSize env s).1.invalidArea.isEmpty = false)
      ∧ (recreatesFramebuffers (updateBufferSize env s).2 = false →
          (updateBufferSize env s).1.invalidArea = s.invalidArea)
      ∧ (s.invalidArea.isEmpty = false → makeContextActive b env.activate1 s = true →
          s.invalidFBO.isSome = true →
          (renderInvalidated b env s).1.invalidArea = ⟨0, 0, 0, 0⟩) := by
  refine ⟨?_, ?_, ?_, ?_, ?_, ?_, ?_⟩
  · intro px py h
    exact Rectangle.getUnion_containsPoint _ r px py h
  · intro h
    show (s.invalidArea.getUnion r).isEmpty = false
    cases hr : r.isEmpty
    · exact Rectangle.getUnion_isEmpty _ _ h hr
    · rw [Rectangle.getUnion_of_isEmpty_right _ _ hr]
      exact h
  · intro px py h hl
    refine ⟨hl, ?_⟩
    rw [updateBufferSize_invalidArea]
    split
    · exact hl
    · exact h
  · intro h
    exact h
  · intro h hl
    rw [updateBufferSize_invalidArea]
    split
    · exact hl
    · exact h
  · intro h
    rw [recreatesFramebuffers_updateBufferSize] at h
    rw [updateBufferSize_invalidArea, h]
    rfl
  · intro h ha hf
    rw [renderInvalidated_of_active b env s h ha hf]

/-- C14, amended, on a 100x100 surface holding the region `(10,10,5,5)`: the
point `(12,12)` survives `invalidateArea((50,50,5,5))`, `invalidateAll()` and
`updateBufferSize()`, and the pass resets the region. -/
theorem c14_region_growth_witness :
    damagedSurface.invalidArea.containsPoint 12 12 = true
      ∧ (invalidateArea ⟨50, 50, 5, 5⟩ damagedSurface).invalidArea.containsPoint 12 12 = true
      ∧ (invalidateArea ⟨50, 50, 5, 5⟩ damagedSurface).invalidArea = ⟨10, 10, 45, 45⟩
      ∧ (invalidateAll damagedSurface).invalidArea.containsPoint 12 12 = true
      ∧ (updateBufferSize goodEnv damagedSurface).1.invalidArea.containsPoint 12 12 = true
      ∧ (renderInvalidated Backend.gl goodEnv damagedSurface).1.invalidArea = ⟨0, 0, 0, 0⟩ :=
  have h := c14_region_growth Backend.gl goodEnv damagedSurface ⟨50, 50, 5, 5⟩
  ⟨by decide, h.1 12 12 (by decide), by decide,
    (h.2.2.1 12 12 (by decide) (by decide)).1, (h.2.2.1 12 12 (by decide) (by decide)).2,
    h.2.2.2.2.2.2 (by decide) (by decide) (by decide)⟩

/-! ## Failed context and framebuffer creation -/

theorem renderInvalidated_ops_of_inactive (b : Backend) (env : Env) (s : Surface)
    (h : makeContextActive b env.activate1 s = false) :
    (renderInvalidated b env s).2 = [] := by
  rw [renderInvalidated_of_inactive b env s h]

/-- On Metal a tick that runs without a nanovg handle issues no drawing call:
`makeContextActive()` reports `isAttached()`, which requires the handle. -/
theorem render_metal_inert_without_context (env : Env) (s : Surface)
    (h : (reinitialise env s).1.nvg = false) :
    ∀ op ∈ (render Backend.metal env s).2, op.isDrawOrSwap = false := by
  have hn : (passState env s).nvg = false := by
    rw [passState, (updateBufferSize_fields env _).2.2.2, h]
  have hfail : activationFails Backend.metal env s = true := by
    simp [activationFails, makeContextActive, isAttached, hn]
  rw [render_of_activationFails Backend.metal env s hfail]
  intro op hop
  rcases List.mem_append.1 hop with h1 | h1
  · exact reinitialise_ops_not_draw env s op h1
  · exact updateBufferSize_ops_not_draw env _ op h1

/-- C15, evaluated on the GL backend.  After an `initialise()` in which
`nvgCreateContext` returned null, a `render()` tick in which it returns null
again and `glContext->makeActive()` succeeds leaves the handle null and still
binds both framebuffers, begins and ends frames, hands a clip to the scene
owner and swaps buffers: GL's `makeContextActive()` does not look at the
handle.  On Metal the same tick issues no drawing call. -/
theorem c15_gl_draws_without_context :
    (initialise contextlessEnv (idleSurface 100 100)).1.nvg = false
      ∧ (render Backend.gl contextlessEnv
          (initialise contextlessEnv (idleSurface 100 100)).1).1.nvg = false
      ∧ Op.bindFramebuffer (some Target.invalidFBO)
          ∈ (render Backend.gl contextlessEnv
              (initialise contextlessEnv (idleSurface 100 100)).1).2
      ∧ Op.beginFrame 100 100 ⟨1, 1⟩
          ∈ (render Backend.gl contextlessEnv
              (initialise contextlessEnv (idleSurface 100 100)).1).2
      ∧ Op.renderArea ⟨-1, -1, 102, 102⟩
          ∈ (render Backend.gl contextlessEnv
              (initialise contextlessEnv (idleSurface 100 100)).1).2
      ∧ Op.swapBuffers
          ∈ (render Backend.gl contextlessEnv
              (initialise contextlessEnv (idleSurface 100 100)).1).2
      ∧ ∀ op ∈ (render Backend.metal contextlessEnv
            (initialise contextlessEnv (idleSurface 100 100)).1).2, op.isDrawOrSwap = false := by
  decide

/-- C16, as stated, fails.  A 1x1 surface (the size set by the constructor)
whose framebuffers were created at scale 1: when the reported scale becomes
1.5 the computed size is still 1x1, the guard of `updateBufferSize()` is false
and nothing is destroyed or created; the recorded scale stays 1. -/
theorem c16_scale_change_without_recreation :
    scale150Env.pixelScale ≠ (idleSurface 1 1).lastScaleFactor
      ∧ scaled (idleSurface 1 1).getWidth scale150Env.pixelScale = 1
      ∧ recreatesFramebuffers (updateBufferSize scale150Env (idleSurface 1 1)).2 = false
      ∧ updateBufferSize scale150Env (idleSurface 1 1) = (idleSurface 1 1, []) := by
  decide

/-- C16, amended.  Whenever the pixel scale reported by `getRenderScale()`
gives a computed framebuffer size that differs from the recorded one
(`fbWidth`, `fbHeight`), `updateBufferSize()` destroys and recreates both
framebuffers at the computed size and records the scale, also when the logical
size is unchanged.  The recorded scale `lastScaleFactor` is not consulted: the
calls issued are the same whatever it holds. -/
theorem c16_recreation_follows_computed_size (env : Env) (s : Surface)
    (hsize : s.fbWidth ≠ scaled s.getWidth env.pixelScale
      ∨ s.fbHeight ≠ scaled s.getHeight env.pixelScale) :
    recreatesFramebuffers (updateBufferSize env s).2 = true
      ∧ (s.invalidFBO.isSome = true →
          Op.deleteFramebuffer Target.invalidFBO ∈ (updateBufferSize env s).2)
      ∧ (s.mainFBO.isSome = true →
          Op.deleteFramebuffer Target.mainFBO ∈ (updateBufferSize env s).2)
      ∧ (updateBufferSize env s).1.fbWidth = scaled s.getWidth env.pixelScale
      ∧ (updateBufferSize env s).1.fbHeight = scaled s.getHeight env.pixelScale
      ∧ (updateBufferSize env s).1.lastScaleFactor = env.pixelScale
      ∧ ∀ recorded : PixelScale,
          (updateBufferSize env { s with lastScaleFactor := recorded }).2
            = (updateBufferSize env s).2 := by
  have hn : needsNewFramebuffers env s = true := by
    rw [needsNewFramebuffers_iff]
    rcases hsize with h | h
    · exact Or.inl h
    · exact Or.inr (Or.inl h)
  refine ⟨by rw [recreatesFramebuffers_updateBufferSize, hn], ?_, ?_, ?_, ?_, ?_, ?_⟩
  · intro h
    simp [updateBufferSize, hn, h]
  · intro h
    simp [updateBufferSize, hn, h]
  · simp [updateBufferSize, hn]
  · simp [updateBufferSize, hn]
  · simp [updateBufferSize, hn]
  · intro recorded
    have hn2 : needsNewFramebuffers env { s with lastScaleFactor := recorded } = true := hn
    simp [updateBufferSize, hn, hn2, Surface.getWidth, Surface.getHeight]

/-- C16, amended, at a 100x100 surface created at scale 1 when the scale
becomes 1.5: both framebuffers are deleted and created at 150x150. -/
theorem c16_recreation_follows_computed_size_witness :
    (idleSurface 100 100).fbWidth ≠ scaled (idleSurface 100 100).getWidth scale150Env.pixelScale
      ∧ recreatesFramebuffers (updateBufferSize scale150Env (idleSurface 100 100)).2 = true
      ∧ (updateBufferSize scale150Env (idleSurface 100 100)).2
          = [Op.deleteFramebuffer Target.invalidFBO, Op.deleteFramebuffer Target.mainFBO,
              Op.createFramebuffer Target.mainFBO 150 150,
              Op.createFramebuffer Target.invalidFBO 150 150]
      ∧ (updateBufferSize scale150Env (idleSurface 100 100)).1.lastScaleFactor = ⟨3, 2⟩ :=
  have h := c16_recreation_follows_computed_size scale150Env (idleSurface 100 100)
    (Or.inl (by decide))
  ⟨by decide, h.1, by decide, h.2.2.2.2.2.1⟩

theorem reinitialise_framebuffer_fields (env : Env) (s : Surface) :
    (reinitialise env s).1.mainFBO = s.mainFBO
      ∧ (reinitialise env s).1.invalidFBO = s.invalidFBO
      ∧ (reinitialise env s).1.fbWidth = s.fbWidth
      ∧ (reinitialise env s).1.fbHeight = s.fbHeight := by
  unfold reinitialise
  split <;> simp [initialise, invalidateAll]

theorem renderInvalidated_framebuffer_fields (b : Backend) (env : Env) (s : Surface) :
    (renderInvalidated b env s).1.mainFBO = s.mainFBO
      ∧ (renderInvalidated b env s).1.invalidFBO = s.invalidFBO
      ∧ (renderInvalidated b env s).1.fbWidth = s.fbWidth
      ∧ (renderInvalidated b env s).1.fbHeight = s.fbHeight := by
  unfold renderInvalidated
  split
  · split <;> simp
  · simp

theorem updateBufferSize_recorded_size (env : Env) (s : Surface) :
    (updateBufferSize env s).1.fbWidth = scaled s.getWidth env.pixelScale
      ∧ (updateBufferSize env s).1.fbHeight = scaled s.getHeight env.pixelScale := by
  unfold updateBufferSize
  split
  · simp
  · rename_i h
    simp only [needsNewFramebuffers, Bool.or_eq_true, decide_eq_true_eq, not_or,
      Decidable.not_not] at h
    exact ⟨h.1.1, h.1.2⟩

theorem updateBufferSize_framebuffers_present (env : Env) (s : Surface)
    (hm : env.mainFramebufferOk = true) (hi : env.invalidFramebufferOk = true)
    (hinv : s.mainFBO.isSome = true → s.invalidFBO.isSome = true) :
    (updateBufferSize env s).1.mainFBO.isSome = true
      ∧ (updateBufferSize env s).1.invalidFBO.isSome = true := by
  unfold updateBufferSize
  split
  · simp [hm, hi]
  · rename_i h
    have hmain : s.mainFBO.isSome = true := by
      cases hs : s.mainFBO with
      | none => simp [needsNewFramebuffers, hs] at h
      | some fb => rfl
    exact ⟨hmain, hinv hmain⟩

/-- C17 fails at this input.  On a GL tick in which `nvgCreateFramebuffer`
returns null for the main target, a surface whose bounds have just been set to
200x100 recreates its framebuffers, stores the null result unchecked and runs
the invalidated-region pass with `mainFBO` null (the main target is bound); the
present pass then reads `mainFBO->image` through the null pointer, before any
composite or swap.  When the call returns null for the scratch target instead,
the invalidated-region pass reads `invalidFBO->image` through the null
pointer. -/
theorem c17_pass_with_null_framebuffer :
    (activationSucceeds Backend.gl noMainFramebufferEnv grownSurface = true
        ∧ Op.createFramebuffer Target.mainFBO 200 100
            ∈ (render Backend.gl noMainFramebufferEnv grownSurface).2
        ∧ (passState noMainFramebufferEnv grownSurface).mainFBO = none
        ∧ Op.bindFramebuffer (some Target.mainFBO)
            ∈ (render Backend.gl noMainFramebufferEnv grownSurface).2
        ∧ Op.renderArea ⟨-1, -1, 202, 102⟩
            ∈ (render Backend.gl noMainFramebufferEnv grownSurface).2
        ∧ (render Backend.gl noMainFramebufferEnv grownSurface).2.getLast?
            = some (Op.nullDereference Target.mainFBO)
        ∧ Op.swapBuffers ∉ (render Backend.gl noMainFramebufferEnv grownSurface).2)
      ∧ (activationSucceeds Backend.gl noInvalidFramebufferEnv grownSurface = true
        ∧ Op.createFramebuffer Target.invalidFBO 200 100
            ∈ (render Backend.gl noInvalidFramebufferEnv grownSurface).2
        ∧ (passState noInvalidFramebufferEnv grownSurface).invalidFBO = none
        ∧ Op.renderArea ⟨-1, -1, 202, 102⟩
            ∈ (render Backend.gl noInvalidFramebufferEnv grownSurface).2
        ∧ (render Backend.gl noInvalidFramebufferEnv grownSurface).2.getLast?
            = some (Op.nullDereference Target.invalidFBO)
        ∧ Op.swapBuffers ∉ (render Backend.gl noInvalidFramebufferEnv grownSurface).2) := by
  decide

/-! ## Full invalidation, the swap bookkeeping and the expanded clip -/

/-- C18.  For every state and every current bounds, `invalidateAll()` sets the
invalid region to exactly the full local bounds `(0,0,width,height)`, whatever
the region was before, and `initialise()` ends with the invalid region equal to
the full local bounds. -/
theorem c18_invalidateAll_full_bounds (env : Env) (s : Surface) (previous : Rectangle) :
    (invalidateAll s).invalidArea = ⟨0, 0, s.getWidth, s.getHeight⟩
      ∧ (invalidateAll { s with invalidArea := previous }).invalidArea
          = ⟨0, 0, s.getWidth, s.getHeight⟩
      ∧ (invalidateAll s).invalidArea = (invalidateAll s).getLocalBounds
      ∧ (initialise env s).1.invalidArea = ⟨0, 0, s.getWidth, s.getHeight⟩
      ∧ (initialise env s).1.invalidArea = (initialise env s).1.getLocalBounds
      ∧ (initialise env s).1.bounds = s.bounds :=
  ⟨rfl, rfl, rfl, rfl, rfl, rfl⟩

theorem renderPresent_without_swap (b : Backend) (env : Env) (s : Surface)
    (h : (s.needsBufferSwap && makeContextActive b env.activate2 s) = false
          ∨ s.mainFBO.isSome = false) :
    (renderPresent b env s).2.countP Op.isSwap = 0 := by
  unfold renderPresent
  rcases h with h | h
  · rw [h]
    rfl
  · split
    · rw [h]
      simp [List.countP_cons, Op.isSwap]
    · rfl

theorem render_swap_reaches_present (env : Env) (s : Surface)
    (hswap : Op.swapBuffers ∈ (render Backend.gl env s).2) :
    crashed (renderInvalidated Backend.gl env (passState env s)).2 = false
      ∧ ((renderInvalidated Backend.gl env (passState env s)).1.needsBufferSwap
          && makeContextActive Backend.gl env.activate2
              (renderInvalidated Backend.gl env (passState env s)).1) = true
      ∧ (renderInvalidated Backend.gl env (passState env s)).1.mainFBO.isSome = true := by
  have hpos : 0 < (render Backend.gl env s).2.countP Op.isSwap :=
    List.countP_pos_iff.2 ⟨Op.swapBuffers, hswap, rfl⟩
  have r1 := (reinitialise_counts env s).1
  have u1 := (updateBufferSize_counts env (reinitialise env s).1).1
  have i1 := (renderInvalidated_counts Backend.gl env (passState env s)).1
  cases hc : crashed (renderInvalidated Backend.gl env (passState env s)).2
  · rw [render_snd Backend.gl env s hc] at hpos
    simp only [List.countP_append, r1, u1, i1] at hpos
    refine ⟨rfl, ?_, ?_⟩
    · by_contra hcond
      have hcond2 : ((renderInvalidated Backend.gl env (passState env s)).1.needsBufferSwap
          && makeContextActive Backend.gl env.activate2
              (renderInvalidated Backend.gl env (passState env s)).1) = false := by
        simpa using hcond
      rw [renderPresent_without_swap Backend.gl env _ (Or.inl hcond2)] at hpos
      omega
    · by_contra hm
      have hm2 : (renderInvalidated Backend.gl env (passState env s)).1.mainFBO.isSome
          = false := by
        simpa using hm
      rw [renderPresent_without_swap Backend.gl env _ (Or.inr hm2)] at hpos
      omega
  · rw [render_snd_of_crashed Backend.gl env s hc] at hpos
    simp only [List.countP_append, r1, u1, i1] at hpos
    omega

/-- C19.  On the GL backend, for every state in which `render()` reaches a
successful buffer swap: afterwards the resizing marker is false, the axis
toggle is negated if and only if the resizing marker was true before the swap
(and otherwise keeps its value), the resize timer is running whenever the
surface bounds differ from the stored target, and the pending-swap flag is
false. -/
theorem c19_after_swap_bookkeeping (env : Env) (s : Surface)
    (hswap : Op.swapBuffers ∈ (render Backend.gl env s).2) :
    (render Backend.gl env s).1.resizing = false
      ∧ ((render Backend.gl env s).1.hresize = (!s.hresize) ↔ s.resizing = true)
      ∧ ((render Backend.gl env s).1.hresize = s.hresize ↔ s.resizing = false)
      ∧ ((render Backend.gl env s).1.bounds ≠ (render Backend.gl env s).1.newBounds →
          (render Backend.gl env s).1.timerRunning = true)
      ∧ (render Backend.gl env s).1.needsBufferSwap = false := by
  obtain ⟨hnc, hc, hmain⟩ := render_swap_reaches_present env s hswap
  obtain ⟨i1, i2, i3, i4, i5⟩ := renderInvalidated_resize_fields Backend.gl env (passState env s)
  obtain ⟨q1, q2, q3, q4⟩ := passState_resize_fields env s
  obtain ⟨a1, a2, a3⟩ := afterSwap_resize (renderInvalidated Backend.gl env (passState env s)).1
  obtain ⟨b1, b2⟩ := render_bounds Backend.gl env s
  simp only [i1, i2, i3, i4, i5, q1, q2, q3, q4, (passState_fields env s).1] at a1 a3
  have hres : (render Backend.gl env s).1
      = { (afterSwap (renderInvalidated Backend.gl env (passState env s)).1).1 with
          needsBufferSwap := false } := by
    rw [render_fst Backend.gl env s hnc]
    unfold renderPresent
    rw [hc, hmain]
    rfl
  have h1 : (render Backend.gl env s).1.hresize = (if s.resizing then !s.hresize else s.hresize) := by
    rw [hres]; exact a1
  have h2 : (render Backend.gl env s).1.resizing = false := by
    rw [hres]; exact a2
  have h3 : (render Backend.gl env s).1.timerRunning
      = (if s.bounds = s.newBounds then s.timerRunning else true) := by
    rw [hres]; exact a3
  have h4 : (render Backend.gl env s).1.needsBufferSwap = false := by
    rw [hres]
  refine ⟨h2, ?_, ?_, ?_, h4⟩
  · rw [h1]
    cases s.resizing <;> cases s.hresize <;> simp
  · rw [h1]
    cases s.resizing <;> cases s.hresize <;> simp
  · intro hne
    rw [b1, b2] at hne
    rw [h3, if_neg hne]

/-- C19 at a surface asked for 200x150 with the toggle on the width: the tick
swaps, the marker is cleared, the toggle moves to the height, the timer is
started because the height is still 100, and the flag is cleared. -/
theorem c19_after_swap_bookkeeping_witness :
    Op.swapBuffers
        ∈ (render Backend.gl goodEnv
            (updateBounds Backend.gl ⟨0, 0, 200, 150⟩ widthFirstSurface)).2
      ∧ (render Backend.gl goodEnv
          (updateBounds Backend.gl ⟨0, 0, 200, 150⟩ widthFirstSurface)).1.resizing = false
      ∧ (render Backend.gl goodEnv
          (updateBounds Backend.gl ⟨0, 0, 200, 150⟩ widthFirstSurface)).1.hresize = false
      ∧ (render Backend.gl goodEnv
          (updateBounds Backend.gl ⟨0, 0, 200, 150⟩ widthFirstSurface)).1.timerRunning = true
      ∧ (render Backend.gl goodEnv
          (updateBounds Backend.gl ⟨0, 0, 200, 150⟩ widthFirstSurface)).1.needsBufferSwap
          = false :=
  have h := c19_after_swap_bookkeeping goodEnv
    (updateBounds Backend.gl ⟨0, 0, 200, 150⟩ widthFirstSurface) (by decide)
  ⟨by decide, h.1, (h.2.1.2 (by decide)).trans (by decide), h.2.2.2.1 (by decide), h.2.2.2.2⟩

/-- C20.  In the invalidated-region pass of `render()`, for every non-empty
invalid region `(x,y,w,h)`, the clip rectangle handed to `editor->renderArea`
for the scratch target and the rectangle filled and scissored on the main
target are the same rectangle, the invalid region grown by one unit on each
side: `(x-1, y-1, w+2, h+2)`.  The pass hands that rectangle to the scene owner
and scissors the main target with it whatever the scratch framebuffer holds;
the fill is the call that reads the scratch framebuffer, so the whole call list
is the one of a non-null scratch framebuffer. -/
theorem c20_same_expanded_rectangle (b : Backend) (env : Env) (s : Surface)
    (hne : s.invalidArea.isEmpty = false)
    (ha : makeContextActive b env.activate1 s = true) :
    s.invalidArea.expanded 1
        = ⟨s.invalidArea.x - 1, s.invalidArea.y - 1, s.invalidArea.w + 2, s.invalidArea.h + 2⟩
      ∧ (Op.renderArea ⟨s.invalidArea.x - 1, s.invalidArea.y - 1, s.invalidArea.w + 2,
              s.invalidArea.h + 2⟩ ∈ (renderInvalidated b env s).2
          ∧ (renderInvalidated b env s).2.countP
              (fun op => op == Op.scissor ⟨s.invalidArea.x - 1, s.invalidArea.y - 1,
                s.invalidArea.w + 2, s.invalidArea.h + 2⟩) = 2
          ∧ ∀ r : Rectangle, (Op.renderArea r ∈ (renderInvalidated b env s).2
                ∨ Op.scissor r ∈ (renderInvalidated b env s).2
                ∨ Op.fillImage r Target.invalidFBO ∈ (renderInvalidated b env s).2) →
              r = ⟨s.invalidArea.x - 1, s.invalidArea.y - 1, s.invalidArea.w + 2,
                s.invalidArea.h + 2⟩)
      ∧ (s.invalidFBO.isSome = true → (renderInvalidated b env s).2
        = [Op.bindFramebuffer (some Target.invalidFBO),
            Op.viewport (scaled s.getWidth env.pixelScale) (scaled s.getHeight env.pixelScale),
            Op.clear,
            Op.beginFrame s.getWidth s.getHeight env.pixelScale,
            Op.scissor ⟨s.invalidArea.x - 1, s.invalidArea.y - 1, s.invalidArea.w + 2,
              s.invalidArea.h + 2⟩,
            Op.renderArea ⟨s.invalidArea.x - 1, s.invalidArea.y - 1, s.invalidArea.w + 2,
              s.invalidArea.h + 2⟩,
            Op.endFrame,
            Op.bindFramebuffer (some Target.mainFBO),
            Op.viewport (scaled s.getWidth env.pixelScale) (scaled s.getHeight env.pixelScale),
            Op.beginFrame s.getWidth s.getHeight env.pixelScale,
            Op.scissor ⟨s.invalidArea.x - 1, s.invalidArea.y - 1, s.invalidArea.w + 2,
              s.invalidArea.h + 2⟩,
            Op.fillImage ⟨s.invalidArea.x - 1, s.invalidArea.y - 1, s.invalidArea.w + 2,
              s.invalidArea.h + 2⟩ Target.invalidFBO,
            Op.endFrame,
            Op.bindFramebuffer none])
      ∧ ∀ (tickStart : Surface), passState env tickStart = s →
          Op.renderArea ⟨s.invalidArea.x - 1, s.invalidArea.y - 1, s.invalidArea.w + 2,
              s.invalidArea.h + 2⟩ ∈ (render b env tickStart).2
            ∧ (s.invalidFBO.isSome = true →
                Op.fillImage ⟨s.invalidArea.x - 1, s.invalidArea.y - 1, s.invalidArea.w + 2,
                  s.invalidArea.h + 2⟩ Target.invalidFBO ∈ (render b env tickStart).2) := by
  have hpos := (Rectangle.isEmpty_eq_false_iff s.invalidArea).1 hne
  have hexp : s.invalidArea.expanded 1
      = ⟨s.invalidArea.x - 1, s.invalidArea.y - 1, s.invalidArea.w + 2,
          s.invalidArea.h + 2⟩ := by
    have e1 : max 0 (s.invalidArea.w + 1 * 2) = s.invalidArea.w + 2 := by omega
    have e2 : max 0 (s.invalidArea.h + 1 * 2) = s.invalidArea.h + 2 := by omega
    simp only [Rectangle.expanded, e1, e2]
  have hops : s.invalidFBO.isSome = true → (renderInvalidated b env s).2
      = [Op.bindFramebuffer (some Target.invalidFBO),
          Op.viewport (scaled s.getWidth env.pixelScale) (scaled s.getHeight env.pixelScale),
          Op.clear,
          Op.beginFrame s.getWidth s.getHeight env.pixelScale,
          Op.scissor (s.invalidArea.expanded 1),
          Op.renderArea (s.invalidArea.expanded 1),
          Op.endFrame,
          Op.bindFramebuffer (some Target.mainFBO),
          Op.viewport (scaled s.getWidth env.pixelScale) (scaled s.getHeight env.pixelScale),
          Op.beginFrame s.getWidth s.getHeight env.pixelScale,
          Op.scissor (s.invalidArea.expanded 1),
          Op.fillImage (s.invalidArea.expanded 1) Target.invalidFBO,
          Op.endFrame,
          Op.bindFramebuffer none] := by
    intro hf
    simp [renderInvalidated, hne, ha, hf]
  have hnull : s.invalidFBO.isSome = false → (renderInvalidated b env s).2
      = [Op.bindFramebuffer (some Target.invalidFBO),
          Op.viewport (scaled s.getWidth env.pixelScale) (scaled s.getHeight env.pixelScale),
          Op.clear,
          Op.beginFrame s.getWidth s.getHeight env.pixelScale,
          Op.scissor (s.invalidArea.expanded 1),
          Op.renderArea (s.invalidArea.expanded 1),
          Op.endFrame,
          Op.bindFramebuffer (some Target.mainFBO),
          Op.viewport (scaled s.getWidth env.pixelScale) (scaled s.getHeight env.pixelScale),
          Op.beginFrame s.getWidth s.getHeight env.pixelScale,
          Op.scissor (s.invalidArea.expanded 1),
          Op.nullDereference Target.invalidFBO] := by
    intro hf
    simp [renderInvalidated, hne, ha, hf]
  rw [hexp] at hops hnull
  have hmem : Op.renderArea ⟨s.invalidArea.x - 1, s.invalidArea.y - 1, s.invalidArea.w + 2,
      s.invalidArea.h + 2⟩ ∈ (renderInvalidated b env s).2 := by
    cases hf : s.invalidFBO.isSome
    · rw [hnull hf]; simp
    · rw [hops hf]; simp
  refine ⟨hexp, ⟨hmem, ?_, ?_⟩, hops, ?_⟩
  · cases hf : s.invalidFBO.isSome
    · rw [hnull hf]; simp [List.countP_cons]
    · rw [hops hf]; simp [List.countP_cons]
  · intro r hr
    cases hf : s.invalidFBO.isSome
    · rw [hnull hf] at hr
      simp at hr
      exact hr
    · rw [hops hf] at hr
      simp at hr
      exact hr
  · intro tickStart hstart
    have hin : ∀ op ∈ (renderInvalidated b env s).2, op ∈ (render b env tickStart).2 := by
      intro op hop
      cases hc : crashed (renderInvalidated b env (passState env tickStart)).2
      · rw [render_snd b env tickStart hc, hstart]
        simp [hop]
      · rw [render_snd_of_crashed b env tickStart hc, hstart]
        simp [hop]
    refine ⟨hin _ hmem, fun hf => hin _ ?_⟩
    rw [hops hf]
    simp

/-- C20 on a 100x100 surface with invalid region `(10,10,5,5)`: the scene owner
is handed `(9,9,7,7)` and the same rectangle is filled on the main target. -/
theorem c20_same_expanded_rectangle_witness :
    (damagedSurface.invalidArea.isEmpty = false
        ∧ makeContextActive Backend.gl goodEnv.activate1 damagedSurface = true)
      ∧ damagedSurface.invalidArea.expanded 1 = ⟨9, 9, 7, 7⟩
      ∧ Op.renderArea ⟨9, 9, 7, 7⟩ ∈ (render Backend.gl goodEnv damagedSurface).2
      ∧ Op.fillImage ⟨9, 9, 7, 7⟩ Target.invalidFBO
          ∈ (render Backend.gl goodEnv damagedSurface).2 :=
  have h := c20_same_expanded_rectangle Backend.gl goodEnv damagedSurface
    (by decide) (by decide)
  ⟨by decide, h.1.trans (by decide), (h.2.2.2 damagedSurface (by decide)).1,
    (h.2.2.2 damagedSurface (by decide)).2 (by decide)⟩

end NVGSurface

namespace ScalarObject

/-! ## Colours from numbers -/

theorem wrapInt32_of_range (x : Int) (hlo : -2147483648 ≤ x) (hhi : x ≤ 2147483647) :
    wrapInt32 x = x := by
  unfold wrapInt32
  omega

theorem rangecolor_bounds (m : Int) (h0 : 0 ≤ m) (h1 : m ≤ 21474836) :
    0 ≤ DrawableTemplate.rangecolor m ∧ DrawableTemplate.rangecolor m ≤ 255 := by
  unfold DrawableTemplate.rangecolor
  by_cases h9 : m = 9
  · subst h9
    decide
  · simp only [h9, if_false]
    rw [wrapInt32_of_range (m * 32) (by omega) (by omega)]
    split <;> omega

theorem rangecolor_digit (d : Int) (h0 : 0 ≤ d) (h9 : d ≤ 9) :
    DrawableTemplate.rangecolor d = digitLevel d := by
  unfold DrawableTemplate.rangecolor digitLevel
  by_cases h : d = 9
  · subst h
    decide
  · simp only [h, if_false]
    rw [wrapInt32_of_range (d * 32) (by omega) (by omega)]
    split <;> omega

theorem numbertocolor_eq (n : Int) (h0 : 0 ≤ n) :
    DrawableTemplate.numbertocolor n
      = Colour.fromRGB (DrawableTemplate.rangecolor (n / 100))
          (DrawableTemplate.rangecolor (n / 10 % 10)) (DrawableTemplate.rangecolor (n % 10)) := by
  have hneg : ¬ n < 0 := by omega
  unfold DrawableTemplate.numbertocolor
  simp only [hneg, if_false]
  rw [Int.tdiv_eq_ediv h0 (by decide), Int.tdiv_eq_ediv h0 (by decide),
    Int.tmod_eq_emod h0 (by decide), Int.tmod_eq_emod (by omega) (by decide)]

/-- C21.  For every `int` `n`, the red, green and blue components of
`numbertocolor(n)` lie in 0..255, and they are the values `rangecolor` returns
(the shift does not overflow and the conversion to `uint8` loses nothing); for `0 <= n <= 999` each component is
`min(255, 32*d')` for the corresponding decimal digit `d` of `n` (hundreds for
red, tens for green, units for blue), with `d' = 8` when `d = 9` and `d' = d`
otherwise; and every negative `n` gives the colour of `n = 0`, black. -/
theorem c21_numbertocolor_components (n : Int) (hlo : -2147483648 ≤ n)
    (hhi : n ≤ 2147483647) :
    ((0 ≤ (DrawableTemplate.numbertocolor n).red ∧ (DrawableTemplate.numbertocolor n).red ≤ 255)
        ∧ (0 ≤ (DrawableTemplate.numbertocolor n).green
            ∧ (DrawableTemplate.numbertocolor n).green ≤ 255)
        ∧ (0 ≤ (DrawableTemplate.numbertocolor n).blue
            ∧ (DrawableTemplate.numbertocolor n).blue ≤ 255))
      ∧ ((DrawableTemplate.numbertocolor n).red
            = DrawableTemplate.rangecolor (Int.tdiv (max n 0) 100)
          ∧ (DrawableTemplate.numbertocolor n).green
            = DrawableTemplate.rangecolor (Int.tmod (Int.tdiv (max n 0) 10) 10)
          ∧ (DrawableTemplate.numbertocolor n).blue
            = DrawableTemplate.rangecolor (Int.tmod (max n 0) 10))
      ∧ (0 ≤ n → n ≤ 999 →
          (DrawableTemplate.numbertocolor n).red = digitLevel (n / 100)
            ∧ (DrawableTemplate.numbertocolor n).green = digitLevel (n / 10 % 10)
            ∧ (DrawableTemplate.numbertocolor n).blue = digitLevel (n % 10))
      ∧ (n < 0 →
          DrawableTemplate.numbertocolor n = DrawableTemplate.numbertocolor 0
            ∧ DrawableTemplate.numbertocolor n = ⟨0, 0, 0⟩) := by
  refine ⟨?_, ?_, ?_, ?_⟩
  · simp only [DrawableTemplate.numbertocolor, Colour.fromRGB]
    refine ⟨⟨?_, ?_⟩, ⟨?_, ?_⟩, ⟨?_, ?_⟩⟩ <;> omega
  · have hm : (if n < 0 then 0 else n) = max n 0 := by
      split <;> omega
    have h0 : 0 ≤ max n 0 := by omega
    have e1 := Int.tdiv_eq_ediv h0 (show (0 : Int) ≤ 100 by decide)
    have e2 := Int.tdiv_eq_ediv h0 (show (0 : Int) ≤ 10 by decide)
    have e3 := Int.tmod_eq_emod h0 (show (0 : Int) ≤ 10 by decide)
    have e4 := Int.tmod_eq_emod (show 0 ≤ max n 0 / 10 by omega) (show (0 : Int) ≤ 10 by decide)
    have br := rangecolor_bounds (max n 0 / 100) (by omega) (by omega)
    have bg := rangecolor_bounds (max n 0 / 10 % 10) (by omega) (by omega)
    have bb := rangecolor_bounds (max n 0 % 10) (by omega) (by omega)
    simp only [DrawableTemplate.numbertocolor, Colour.fromRGB, hm, e1, e2, e3, e4]
    refine ⟨?_, ?_, ?_⟩ <;> omega
  · intro h0 h999
    rw [numbertocolor_eq n h0]
    have hr := rangecolor_digit (n / 100) (by omega) (by omega)
    have hg := rangecolor_digit (n / 10 % 10) (by omega) (by omega)
    have hb := rangecolor_digit (n % 10) (by omega) (by omega)
    have br := rangecolor_bounds (n / 100) (by omega) (by omega)
    have bg := rangecolor_bounds (n / 10 % 10) (by omega) (by omega)
    have bb := rangecolor_bounds (n % 10) (by omega) (by omega)
    simp only [Colour.fromRGB]
    rw [← hr, ← hg, ← hb]
    refine ⟨?_, ?_, ?_⟩ <;> omega
  · intro hneg
    have h : DrawableTemplate.numbertocolor n = DrawableTemplate.numbertocolor 0 := by
      unfold DrawableTemplate.numbertocolor
      simp [hneg]
    exact ⟨h, h.trans (by decide)⟩

/-- C21 at four numbers: 987 (digits 9 and 8 both saturate), 123, the negative
-5 and the largest `int`. -/
theorem c21_numbertocolor_components_witness :
    DrawableTemplate.numbertocolor 987 = ⟨255, 255, 224⟩
      ∧ (DrawableTemplate.numbertocolor 123).red = digitLevel (123 / 100)
      ∧ DrawableTemplate.numbertocolor 123 = ⟨32, 64, 96⟩
      ∧ DrawableTemplate.numbertocolor (-5) = ⟨0, 0, 0⟩
      ∧ (DrawableTemplate.numbertocolor 2147483647).red ≤ 255 :=
  ⟨by decide,
    ((c21_numbertocolor_components 123 (by decide) (by decide)).2.2.1 (by decide)
      (by decide)).1,
    by decide,
    ((c21_numbertocolor_components (-5) (by decide) (by decide)).2.2.2 (by decide)).2,
    (c21_numbertocolor_components 2147483647 (by decide) (by decide)).1.1.2⟩

/-! ## Local arrays -/

theorem writeCell_of_range (size : Int) (a : CArray) (i v : Int) (h0 : 0 ≤ i)
    (h1 : i < size) :
    writeCell size a i v = some (fun j => if j = i then some v else a j) := by
  simp [writeCell, h0, h1]

theorem readCell_of_range (size : Int) (a : CArray) (i : Int) (h0 : 0 ≤ i) (h1 : i < size) :
    readCell size a i = a i := by
  simp [readCell, h0, h1]

/-! ## The `pix` array of `DrawableCurve::update` -/

/-- The first loop succeeds while the counter stays below 100; it writes the
cells `2*i .. 2*(i+k)-1` with the coordinates of the points and leaves every
other cell alone. -/
theorem fillLoop_spec (coords : Int → Int × Int) (k : Nat) (i : Int) (pix : CArray)
    (h0 : 0 ≤ i) (h1 : i + k ≤ 100) :
    ∃ q, DrawableCurve.fillLoop coords k i pix = some q
      ∧ (∀ j : Int, (j < 2 * i ∨ 2 * (i + k) ≤ j) → q j = pix j)
      ∧ (∀ m : Int, i ≤ m → m < i + k →
          q (2 * m) = some (coords m).1 ∧ q (2 * m + 1) = some (coords m).2) := by
  induction k generalizing i pix with
  | zero =>
    refine ⟨pix, rfl, fun _ _ => rfl, ?_⟩
    intro m hm1 hm2
    omega
  | succ k ih =>
    have hk : i + 1 + (k : Int) ≤ 100 := by
      have : ((k + 1 : Nat) : Int) = (k : Int) + 1 := by simp
      omega
    have hcast : ((k + 1 : Nat) : Int) = (k : Int) + 1 := by simp
    obtain ⟨q, hq, hout, hin⟩ := ih (i + 1)
      (fun j => if j = 2 * i + 1 then some (coords i).2
        else if j = 2 * i then some (coords i).1 else pix j) (by omega) hk
    refine ⟨q, ?_, ?_, ?_⟩
    · simp only [DrawableCurve.fillLoop]
      rw [writeCell_of_range 200 pix (2 * i) _ (by omega) (by omega)]
      simp only [Option.some_bind]
      rw [writeCell_of_range 200 _ (2 * i + 1) _ (by omega) (by omega)]
      simp only [Option.some_bind]
      exact hq
    · intro j hj
      rw [hcast] at hj
      rw [hout j (by omega)]
      have e1 : j ≠ 2 * i + 1 := by omega
      have e2 : j ≠ 2 * i := by omega
      simp [e1, e2]
    · intro m hm1 hm2
      rw [hcast] at hm2
      by_cases hm : m = i
      · subst hm
        rw [hout (2 * m) (by omega), hout (2 * m + 1) (by omega)]
        have e : (2 * m : Int) ≠ 2 * m + 1 := by omega
        simp [e]
      · exact hin m (by omega) (by omega)

/-- The second loop reads back the points the first one stored. -/
theorem lineLoop_spec (coords : Int → Int × Int) (q : CArray) (k : Nat) (i : Int)
    (h0 : 0 ≤ i) (h1 : i + k ≤ 100)
    (hq : ∀ m : Int, i ≤ m → m < i + k →
      q (2 * m) = some (coords m).1 ∧ q (2 * m + 1) = some (coords m).2) :
    DrawableCurve.lineLoop q k i = some (pointsFrom coords k i) := by
  induction k generalizing i with
  | zero => rfl
  | succ k ih =>
    have hcast : ((k + 1 : Nat) : Int) = (k : Int) + 1 := by simp
    rw [hcast] at h1 hq
    obtain ⟨hx, hy⟩ := hq i (by omega) (by omega)
    have hrest := ih (i + 1) (by omega) (by omega)
      (fun m hm1 hm2 => hq m (by omega) (by omega))
    simp only [DrawableCurve.lineLoop, pointsFrom]
    rw [readCell_of_range 200 q (2 * i) (by omega) (by omega), hx,
      readCell_of_range 200 q (2 * i + 1) (by omega) (by omega), hy]
    simp [hrest]

/-- C22.  In `DrawableCurve::update`, for every point count `x_npoints` (also
above 100 and below 2), every write to and read from the 200-element array
`pix` uses an index in 0..199 and every element read was written earlier in
the same call: the function never leaves the array and never meets an
unwritten cell.  With fewer than two points the array is not touched; otherwise
exactly the cells `0 .. 2n-1` are written, `n` being the count clamped to 100,
and the path built visits the `n` stored points (and the first one again when
the curve is closed); that path is the one set, except for a closed curve whose
path has empty bounds, where the 5x5 ellipse replaces it. -/
theorem c22_pix_accesses_in_bounds (coords : Int → Int × Int) (npoints : Int)
    (closed : Bool) :
    (DrawableCurve.update coords npoints closed).isSome = true
      ∧ (npoints ≤ 1 → DrawableCurve.update coords npoints closed = some CurveOutcome.warning)
      ∧ (1 < npoints →
          2 * min npoints 100 ≤ 200
            ∧ (∃ pix, DrawableCurve.fillLoop coords (min npoints 100).toNat 0 freshArray
                  = some pix
                ∧ ∀ j : Int, (pix j).isSome = true ↔ (0 ≤ j ∧ j < 2 * min npoints 100))
            ∧ DrawableCurve.update coords npoints closed
              = some (DrawableCurve.setPathOf closed
                  (pointsFrom coords (min npoints 100).toNat 0
                    ++ if closed then [coords 0] else []))
            ∧ (closed = false → DrawableCurve.update coords npoints closed
                = some (CurveOutcome.path (pointsFrom coords (min npoints 100).toNat 0)))
            ∧ (closed = true →
                (pathBounds (pointsFrom coords (min npoints 100).toNat 0 ++ [coords 0])).isEmpty
                  = false →
                DrawableCurve.update coords npoints closed
                  = some (CurveOutcome.path
                      (pointsFrom coords (min npoints 100).toNat 0 ++ [coords 0])))
            ∧ (closed = true →
                (pathBounds (pointsFrom coords (min npoints 100).toNat 0 ++ [coords 0])).isEmpty
                  = true →
                DrawableCurve.update coords npoints closed
                  = some (CurveOutcome.dot
                      (pathBounds (pointsFrom coords (min npoints 100).toNat 0
                        ++ [coords 0]))))) := by
  by_cases hn : 1 < npoints
  · have hmin : (if npoints > 100 then 100 else npoints) = min npoints 100 := by
      split <;> omega
    have hn2 : 2 ≤ min npoints 100 := by omega
    have hle : min npoints 100 ≤ 100 := by omega
    have hnat : ((min npoints 100).toNat : Int) = min npoints 100 := by omega
    obtain ⟨q, hq, hout, hin⟩ := fillLoop_spec coords (min npoints 100).toNat 0 freshArray
      (by omega) (by omega)
    rw [hnat] at hout hin
    have hline := lineLoop_spec coords q (min npoints 100 - 1).toNat 1 (by omega) (by omega)
      (fun m hm1 hm2 => hin m (by omega) (by omega))
    obtain ⟨hx0, hy0⟩ := hin 0 (by omega) (by omega)
    have hsplit : (min npoints 100).toNat = (min npoints 100 - 1).toNat + 1 := by omega
    have hupd : DrawableCurve.update coords npoints closed
        = some (DrawableCurve.setPathOf closed
            (pointsFrom coords (min npoints 100).toNat 0
              ++ if closed then [coords 0] else [])) := by
      have r0 : readCell 200 q 0 = some (coords 0).1 := by
        rw [readCell_of_range 200 q 0 (by omega) (by omega)]
        simpa using hx0
      have r1 : readCell 200 q 1 = some (coords 0).2 := by
        rw [readCell_of_range 200 q 1 (by omega) (by omega)]
        simpa using hy0
      have hpts : pointsFrom coords (min npoints 100).toNat 0
          = coords 0 :: pointsFrom coords (min npoints 100 - 1).toNat 1 := by
        rw [hsplit]
        rfl
      unfold DrawableCurve.update
      rw [if_pos (by omega : npoints > 1)]
      simp only [hmin, hq, Option.some_bind, r0, r1, hline, hpts]
      cases closed <;> simp
    refine ⟨by rw [hupd]; rfl, fun h => absurd hn (by omega),
      fun _ => ⟨by omega, ?_, hupd, ?_, ?_, ?_⟩⟩
    rotate_left
    · intro hc
      rw [hupd, hc]
      simp [DrawableCurve.setPathOf]
    · intro hc hb
      rw [hupd, hc]
      simp [DrawableCurve.setPathOf, hb]
    · intro hc hb
      rw [hupd, hc]
      simp [DrawableCurve.setPathOf, hb]
    refine ⟨q, hq, ?_⟩
    intro j
    constructor
    · intro hsome
      by_contra hc
      have : q j = freshArray j := hout j (by omega)
      rw [this] at hsome
      simp [freshArray] at hsome
    · intro hj
      obtain ⟨ha, hb⟩ := hin (j / 2) (by omega) (by omega)
      rcases Int.emod_two_eq_zero_or_one j with h | h
      · have e : 2 * (j / 2) = j := by omega
        rw [e] at ha
        rw [ha]
        rfl
      · have e : 2 * (j / 2) + 1 = j := by omega
        rw [e] at hb
        rw [hb]
        rfl
  · have hupd : DrawableCurve.update coords npoints closed = some CurveOutcome.warning := by
      unfold DrawableCurve.update
      rw [if_neg (by omega : ¬ npoints > 1)]
    exact ⟨by rw [hupd]; rfl, fun _ => hupd, fun h => absurd h hn⟩

/-- C22 at four curves: 3 points of a closed curve, a closed curve of 3 equal
points (the dot), 250 points (clamped to 100, cells 0..199 written) and a
single point (warning only). -/
theorem c22_pix_accesses_in_bounds_witness :
    DrawableCurve.update (fun i => (10 * i, 10 * i + 1)) 3 true
        = some (CurveOutcome.path [(0, 1), (10, 11), (20, 21), (0, 1)])
      ∧ DrawableCurve.update (fun _ => (4, 7)) 3 true = some (CurveOutcome.dot ⟨4, 7, 0, 0⟩)
      ∧ 2 * min (250 : Int) 100 ≤ 200
      ∧ (DrawableCurve.update (fun i => (i, i)) 250 false).isSome = true
      ∧ DrawableCurve.update (fun i => (i, i)) 1 true = some CurveOutcome.warning :=
  ⟨((c22_pix_accesses_in_bounds (fun i => (10 * i, 10 * i + 1)) 3 true).2.2
      (by decide)).2.2.1.trans (by decide),
    (((c22_pix_accesses_in_bounds (fun _ => (4, 7)) 3 true).2.2 (by decide)).2.2.2.2.2
      rfl (by decide)).trans (by decide),
    ((c22_pix_accesses_in_bounds (fun i => (i, i)) 250 false).2.2 (by decide)).1,
    (c22_pix_accesses_in_bounds (fun i => (i, i)) 250 false).1,
    (c22_pix_accesses_in_bounds (fun i => (i, i)) 1 true).2.1 (by decide)⟩

/-! ## The `buf` array of `DrawableSymbol::update` -/

/-- A run of stores that fits the array succeeds; it writes the bytes in order
from `start` on and leaves every other cell alone. -/
theorem storeBytes_spec (size : Int) (bytes : List Int) (a : CArray) (start : Int)
    (h0 : 0 ≤ start) (h1 : start + bytes.length ≤ size) :
    ∃ a2, storeBytes size a start bytes = some a2
      ∧ (∀ j : Int, (j < start ∨ start + bytes.length ≤ j) → a2 j = a j)
      ∧ (∀ k : Nat, k < bytes.length → a2 (start + k) = bytes[k]?) := by
  induction bytes generalizing a start with
  | nil =>
    refine ⟨a, rfl, fun _ _ => rfl, ?_⟩
    intro k hk
    simp at hk
  | cons b rest ih =>
    have hlen : (((b :: rest).length : Nat) : Int) = (rest.length : Int) + 1 := by simp
    rw [hlen] at h1
    obtain ⟨a2, ha2, hout, hin⟩ := ih (fun j => if j = start then some b else a j) (start + 1)
      (by omega) (by omega)
    refine ⟨a2, ?_, ?_, ?_⟩
    · simp only [storeBytes]
      rw [writeCell_of_range size a start b h0 (by omega)]
      simp only [Option.some_bind]
      exact ha2
    · intro j hj
      rw [hlen] at hj
      rw [hout j (by omega)]
      have e : j ≠ start := by omega
      simp [e]
    · intro k hk
      cases k with
      | zero =>
        rw [hout (start + ((0 : Nat) : Int)) (by omega)]
        simp
      | succ k =>
        have hk2 : k < rest.length := by simpa using hk
        have := hin k hk2
        have e : start + ((k + 1 : Nat) : Int) = start + 1 + (k : Int) := by
          have : ((k + 1 : Nat) : Int) = (k : Int) + 1 := by simp
          omega
        rw [e, this]
        simp

theorem storeBytes_isSome (size : Int) (bytes : List Int) (a a2 : CArray) (start : Int)
    (h0 : 0 ≤ start) (h1 : start + bytes.length ≤ size)
    (h : storeBytes size a start bytes = some a2) (j : Int) :
    (a2 j).isSome = true ↔ ((a j).isSome = true ∨ (start ≤ j ∧ j < start + bytes.length)) := by
  obtain ⟨a3, ha3, hout, hin⟩ := storeBytes_spec size bytes a start h0 h1
  rw [h] at ha3
  cases ha3
  by_cases hj : start ≤ j ∧ j < start + bytes.length
  · have hk : (j - start).toNat < bytes.length := by omega
    have := hin (j - start).toNat hk
    have e : start + ((j - start).toNat : Int) = j := by omega
    rw [e] at this
    rw [this]
    simp [hk, hj]
  · rw [hout j (by omega)]
    simp [hj]

theorem strncpyBytes_length (src : List Int) (count : Nat) :
    (strncpyBytes src count).length = count := by
  simp only [strncpyBytes, List.length_append, List.length_take, List.length_replicate]
  omega

theorem cString_ne_zero (src : List Int) (k : Nat) (hk : k < (cString src).length) :
    ∃ c, (cString src)[k]? = some c ∧ c ≠ 0 := by
  have hmem : (cString src)[k] ∈ cString src := List.getElem_mem hk
  refine ⟨(cString src)[k], by simp [hk], ?_⟩
  have := (List.mem_takeWhile_imp hmem)
  simpa using this

theorem strncpyBytes_getElem (src : List Int) (count k : Nat) (hk : k < count) :
    (strncpyBytes src count)[k]?
      = if k < (cString src).length then (cString src)[k]? else some 0 := by
  unfold strncpyBytes
  by_cases h : k < (cString src).length
  · rw [if_pos h, List.getElem?_append_left (by simp [List.length_take]; omega)]
    simp [List.getElem?_take, hk]
  · rw [if_neg h, List.getElem?_append_right (by simp [List.length_take]; omega)]
    rw [List.getElem?_replicate, if_pos (by simp only [List.length_take]; omega)]

/-- The scan of `strlen` stops at the first NUL: it succeeds when a NUL lies
inside the array at or after the start and every cell before it is written. -/
theorem strlenLoop_spec (size : Int) (a : CArray) (m : Int) (hm : m < size)
    (hz : a m = some 0) (fuel : Nat) (i : Int) (h0 : 0 ≤ i) (him : i ≤ m)
    (hinit : ∀ j : Int, i ≤ j → j < m → (a j).isSome = true) (hfuel : m - i < fuel) :
    ∃ k, strlenLoop size a fuel i = some k ∧ i ≤ k ∧ k ≤ m ∧ a k = some 0
      ∧ ∀ j : Int, i ≤ j → j < k → a j ≠ some 0 := by
  induction fuel generalizing i with
  | zero => omega
  | succ fuel ih =>
    simp only [strlenLoop]
    rw [readCell_of_range size a i h0 (by omega)]
    by_cases hi : i = m
    · subst hi
      rw [hz]
      refine ⟨i, by simp, by omega, by omega, hz, ?_⟩
      intro j hj1 hj2
      omega
    · have hsome := hinit i (by omega) (by omega)
      obtain ⟨c, hc⟩ := Option.isSome_iff_exists.1 hsome
      rw [hc]
      by_cases hc0 : c = 0
      · subst hc0
        refine ⟨i, by simp, by omega, by omega, hc, ?_⟩
        intro j hj1 hj2
        omega
      · obtain ⟨k, hk, hk1, hk2, hk3, hk4⟩ := ih (i + 1) (by omega) (by omega)
          (fun j hj1 hj2 => hinit j (by omega) hj2) (by omega)
        refine ⟨k, by simp [hc0, hk], by omega, hk2, hk3, ?_⟩
        intro j hj1 hj2
        by_cases hji : j = i
        · subst hji
          rw [hc]
          simpa using hc0
        · exact hk4 j (by omega) hj2

/-- The buffer after `strncpy(buf, label, 1024); buf[1023] = 0;`: all 1024
cells are written and nothing else, the characters of the label come first, and
`strlen` finds the terminator at the label length capped at 1023. -/
theorem labelBuffer_spec (label : List Int) :
    ∃ b1 b2, storeBytes 1024 freshArray 0 (strncpyBytes label 1024) = some b1
      ∧ writeCell 1024 b1 (1024 - 1) 0 = some b2
      ∧ (∀ j : Int, (b2 j).isSome = true ↔ (0 ≤ j ∧ j < 1024))
      ∧ (∀ k : Nat, k < (cString label).length → k < 1023 → b2 k = (cString label)[k]?)
      ∧ b2 (min ((cString label).length : Int) 1023) = some 0
      ∧ strlen 1024 b2 = some (min ((cString label).length : Int) 1023) := by
  have hlen := strncpyBytes_length label 1024
  obtain ⟨b1, hb1, hout, hin⟩ := storeBytes_spec 1024 (strncpyBytes label 1024) freshArray 0
    (by omega) (by rw [hlen]; decide)
  have hsome1 := storeBytes_isSome 1024 (strncpyBytes label 1024) freshArray b1 0 (by omega)
    (by rw [hlen]; decide) hb1
  have hcell : ∀ k : Nat, k < 1024 →
      b1 k = if k < (cString label).length then (cString label)[k]? else some 0 := by
    intro k hk
    have := hin k (by rw [hlen]; exact hk)
    rw [Int.zero_add] at this
    rw [this, strncpyBytes_getElem label 1024 k hk]
  have hP1 : ∀ j : Int, ((fun j => if j = 1024 - 1 then some 0 else b1 j) j).isSome = true
      ↔ (0 ≤ j ∧ j < 1024) := by
    intro j
    by_cases hj : j = 1024 - 1
    · simp [hj]
    · simp only [hj, if_false, hsome1 j, hlen]
      simp [freshArray]
  have hP3 : ∀ k : Nat, k < (cString label).length → k < 1023 →
      (fun j => if j = 1024 - 1 then some 0 else b1 j) (k : Int) = (cString label)[k]? := by
    intro k hk1 hk2
    have e : ((k : Int) = 1024 - 1) = False := by
      apply propext
      constructor
      · intro h; omega
      · intro h; exact h.elim
    simp only [e, if_false]
    rw [hcell k (by omega), if_pos hk1]
  have hP4 : (fun j => if j = 1024 - 1 then some 0 else b1 j)
      (min ((cString label).length : Int) 1023) = some 0 := by
    by_cases hL : (cString label).length < 1023
    · have e1 : min ((cString label).length : Int) 1023 = ((cString label).length : Int) := by
        omega
      have e2 : ¬ (((cString label).length : Int) = 1024 - 1) := by omega
      rw [e1]
      simp only [e2, if_false]
      rw [hcell (cString label).length (by omega)]
      simp
    · have e1 : min ((cString label).length : Int) 1023 = 1024 - 1 := by omega
      rw [e1]
      simp
  refine ⟨b1, fun j => if j = 1024 - 1 then some 0 else b1 j, hb1,
    writeCell_of_range 1024 b1 (1024 - 1) 0 (by decide) (by decide), hP1, hP3, hP4, ?_⟩
  · obtain ⟨k, hk, hk1, hk2, hk3, hk4⟩ := strlenLoop_spec 1024
      (fun j => if j = 1024 - 1 then some 0 else b1 j)
      (min ((cString label).length : Int) 1023) (by omega) hP4 1024 0 (by omega) (by omega)
      (fun j hj1 hj2 => (hP1 j).2 ⟨hj1, by omega⟩) (by omega)
    have hkm : k = min ((cString label).length : Int) 1023 := by
      by_contra hne
      have hlt : k < min ((cString label).length : Int) 1023 := by omega
      have hknat : ((k.toNat : Nat) : Int) = k := by omega
      obtain ⟨c, hc1, hc2⟩ := cString_ne_zero label k.toNat (by omega)
      have := hP3 k.toNat (by omega) (by omega)
      rw [hknat] at this
      have h3 : (cString label)[k.toNat]? = some 0 := this.symm.trans hk3
      rw [hc1] at h3
      exact hc2 (by simpa using h3)
    unfold strlen
    rw [← hkm]
    exact hk

theorem update_text_eq (label text : List Int) (b1 b2 b3 b4 b5 : CArray) (nchars len : Int)
    (h1 : storeBytes 1024 freshArray 0 (strncpyBytes label 1024) = some b1)
    (h2 : writeCell 1024 b1 (1024 - 1) 0 = some b2)
    (h3 : strlen 1024 b2 = some nchars)
    (h4 : memcpy 1024 b2 nchars text
        (if (text.length : Int) > 1024 - 1 - nchars then 1024 - 1 - nchars else text.length)
        = some b3)
    (h5 : writeCell 1024 b3
        (nchars + (if (text.length : Int) > 1024 - 1 - nchars then 1024 - 1 - nchars
          else text.length)) 0 = some b4)
    (h6 : (if nchars + (if (text.length : Int) > 1024 - 1 - nchars then 1024 - 1 - nchars
          else text.length) = 1024 - 1 then strcpy 1024 b4 (1024 - 4) [46, 46, 46]
        else some b4) = some b5)
    (h7 : strlen 1024 b5 = some len) :
    DrawableSymbol.update label (FieldValue.text text)
      = some ⟨b5, some nchars,
          some (if (text.length : Int) > 1024 - 1 - nchars then 1024 - 1 - nchars
            else text.length), len⟩ := by
  simp only [DrawableSymbol.update, h1, Option.some_bind, h2, h3, h4, h5, h6, h7]
  rfl

/-- C23.  In `DrawableSymbol::update`, for every label and every text field
(`size2 >= 0`), the function runs to `setText` without leaving the 1024-byte
buffer: the cells written are exactly `0..1023`, `nchars` is the label length
capped at 1023, `ncopy` is `min(size2, 1023 - nchars)`, the buffer holds a NUL
at `nchars + ncopy <= 1023` (so the string read back ends inside the buffer),
the cells `1020..1022` hold `"..."` with the NUL at 1023 when
`nchars + ncopy = 1023`, and otherwise every character before the terminator
is the label or text character copied there: nothing is replaced.  When the
field is missing only `buf[0]` is written, with NUL. -/
theorem c23_label_buffer_in_bounds (label text : List Int) :
    (∃ r, DrawableSymbol.update label (FieldValue.text text) = some r
        ∧ r.nchars = some (specNchars label)
        ∧ r.ncopy = some (specNcopy label text)
        ∧ (∀ j : Int, (r.buf j).isSome = true ↔ (0 ≤ j ∧ j < 1024))
        ∧ (0 ≤ specNchars label + specNcopy label text
            ∧ specNchars label + specNcopy label text ≤ 1023
            ∧ r.buf (specNchars label + specNcopy label text) = some 0)
        ∧ (0 ≤ r.shownLength ∧ r.shownLength ≤ specNchars label + specNcopy label text
            ∧ r.buf r.shownLength = some 0)
        ∧ (specNchars label + specNcopy label text = 1023 →
            r.buf 1020 = some 46 ∧ r.buf 1021 = some 46 ∧ r.buf 1022 = some 46
              ∧ r.buf 1023 = some 0)
        ∧ (∀ j : Nat,
            (j : Int) < (if specNchars label + specNcopy label text = 1023 then 1020
              else specNchars label + specNcopy label text) →
            r.buf j = (cString label ++ text)[j]?))
      ∧ (∃ r, DrawableSymbol.update label FieldValue.missing = some r
        ∧ r.buf 0 = some 0 ∧ r.shownLength = 0
        ∧ ∀ j : Int, (r.buf j).isSome = true ↔ j = 0) := by
  constructor
  · obtain ⟨b1, b2, hb1, hb2, hP1, hP3, hP4, hstrlen⟩ := labelBuffer_spec label
    have hnch0 : 0 ≤ specNchars label := by unfold specNchars; omega
    have hnch1 : specNchars label ≤ 1023 := by unfold specNchars; omega
    have hncp0 : 0 ≤ specNcopy label text := by unfold specNcopy; omega
    have hncp1 : specNcopy label text ≤ text.length := by unfold specNcopy; omega
    have hsum : specNchars label + specNcopy label text ≤ 1023 := by unfold specNcopy; omega
    have hncopy : (if (text.length : Int) > 1024 - 1 - specNchars label
        then 1024 - 1 - specNchars label else text.length) = specNcopy label text := by
      unfold specNcopy
      split <;> omega
    have hstrlen2 : strlen 1024 b2 = some (specNchars label) := hstrlen
    -- memcpy
    have htake : (((text.take (specNcopy label text).toNat).length : Nat) : Int)
        = specNcopy label text := by
      rw [List.length_take]
      omega
    obtain ⟨b3, hb3, hout3, hin3⟩ := storeBytes_spec 1024
      (text.take (specNcopy label text).toNat) b2 (specNchars label) hnch0
      (by rw [htake]; omega)
    have hsome3 := storeBytes_isSome 1024 (text.take (specNcopy label text).toNat) b2 b3
      (specNchars label) hnch0 (by rw [htake]; omega) hb3
    rw [htake] at hout3
    simp only [htake] at hsome3
    have hmem : memcpy 1024 b2 (specNchars label) text (specNcopy label text) = some b3 := by
      unfold memcpy
      rw [if_pos ⟨hncp0, hncp1⟩]
      exact hb3
    -- the terminator
    have hb4 := writeCell_of_range 1024 b3 (specNchars label + specNcopy label text) 0
      (by omega) (by omega)
    -- the ellipsis
    by_cases htr : specNchars label + specNcopy label text = 1023
    · obtain ⟨b5, hb5, hout5, hin5⟩ := storeBytes_spec 1024 ([46, 46, 46] ++ [0])
        (fun j => if j = specNchars label + specNcopy label text then some 0 else b3 j)
        (1024 - 4) (by decide) (by decide)
      have hsome5 := storeBytes_isSome 1024 ([46, 46, 46] ++ [0])
        (fun j => if j = specNchars label + specNcopy label text then some 0 else b3 j) b5
        (1024 - 4) (by decide) (by decide) hb5
      have hb5z : b5 (specNchars label + specNcopy label text) = some 0 := by
        have := hin5 3 (by decide)
        rw [htr]
        simpa using this
      have hinit5 : ∀ j : Int, (b5 j).isSome = true ↔ (0 ≤ j ∧ j < 1024) := by
        intro j
        rw [hsome5 j]
        by_cases hj : j = specNchars label + specNcopy label text
        · simp only [hj, if_true]
          simp
          omega
        · simp only [hj, if_false, hsome3 j, hP1 j]
          simp
          omega
      obtain ⟨k, hk, hk1, hk2, hk3, -⟩ := strlenLoop_spec 1024 b5
        (specNchars label + specNcopy label text) (by omega) hb5z 1024 0 (by omega) (by omega)
        (fun j hj1 hj2 => (hinit5 j).2 ⟨hj1, by omega⟩) (by omega)
      have hupd := update_text_eq label text b1 b2 b3 _ b5 (specNchars label) k hb1 hb2
        hstrlen2 (by rw [hncopy]; exact hmem) (by rw [hncopy]; exact hb4)
        (by rw [hncopy, if_pos (by omega)]; exact hb5) hk
      rw [hncopy] at hupd
      refine ⟨_, hupd, rfl, rfl, hinit5, ⟨by omega, hsum, hb5z⟩, ⟨hk1, hk2, hk3⟩, ?_, ?_⟩
      · intro _
        have c0 := hin5 0 (by decide)
        have c1 := hin5 1 (by decide)
        have c2 := hin5 2 (by decide)
        have c3 := hin5 3 (by decide)
        exact ⟨by simpa using c0, by simpa using c1, by simpa using c2, by simpa using c3⟩
      · intro j hj
        rw [if_pos htr] at hj
        show b5 j = _
        rw [hout5 (j : Int) (by simp; omega)]
        have e1 : ¬ ((j : Int) = specNchars label + specNcopy label text) := by omega
        simp only [e1, if_false]
        by_cases hjl : (j : Int) < specNchars label
        · rw [hout3 j (by omega)]
          have hjL : j < (cString label).length := by unfold specNchars at hjl; omega
          rw [hP3 j hjL (by omega), List.getElem?_append_left hjL]
        · have hL : specNchars label = ((cString label).length : Int) := by
            unfold specNchars at hjl htr hncp0 ⊢
            unfold specNcopy specNchars at htr
            omega
          have hidx : (j : Int) = specNchars label + ((j - (cString label).length : Nat) : Int) := by
            omega
          have hlt : j - (cString label).length < (text.take (specNcopy label text).toNat).length := by
            omega
          have := hin3 (j - (cString label).length) hlt
          rw [← hidx] at this
          rw [this, List.getElem?_append_right (by omega),
            List.getElem?_take_of_lt (by omega)]
    · have hsome4 : ∀ j : Int,
          ((fun j => if j = specNchars label + specNcopy label text then some 0 else b3 j)
            j).isSome = true ↔ (0 ≤ j ∧ j < 1024) := by
        intro j
        by_cases hj : j = specNchars label + specNcopy label text
        · simp only [hj, if_true]
          simp
          omega
        · simp only [hj, if_false, hsome3 j, hP1 j]
          simp
          omega
      have hb4z : (fun j => if j = specNchars label + specNcopy label text then some 0
          else b3 j) (specNchars label + specNcopy label text) = some 0 := by
        simp
      obtain ⟨k, hk, hk1, hk2, hk3, -⟩ := strlenLoop_spec 1024
        (fun j => if j = specNchars label + specNcopy label text then some 0 else b3 j)
        (specNchars label + specNcopy label text) (by omega) hb4z 1024 0 (by omega) (by omega)
        (fun j hj1 hj2 => (hsome4 j).2 ⟨hj1, by omega⟩) (by omega)
      have hupd := update_text_eq label text b1 b2 b3 _ _ (specNchars label) k hb1 hb2
        hstrlen2 (by rw [hncopy]; exact hmem) (by rw [hncopy]; exact hb4)
        (by rw [hncopy, if_neg (by omega)]) hk
      rw [hncopy] at hupd
      refine ⟨_, hupd, rfl, rfl, hsome4, ⟨by omega, hsum, hb4z⟩, ⟨hk1, hk2, hk3⟩,
        fun h => absurd h htr, ?_⟩
      intro j hj
      rw [if_neg htr] at hj
      show (if (j : Int) = specNchars label + specNcopy label text then some 0 else b3 j) = _
      have e1 : ¬ ((j : Int) = specNchars label + specNcopy label text) := by omega
      simp only [e1, if_false]
      by_cases hjl : (j : Int) < specNchars label
      · rw [hout3 j (by omega)]
        have hjL : j < (cString label).length := by unfold specNchars at hjl; omega
        rw [hP3 j hjL (by omega), List.getElem?_append_left hjL]
      · have hL : specNchars label = ((cString label).length : Int) := by
          unfold specNchars at hjl hj hncp0 ⊢
          unfold specNcopy specNchars at hj
          omega
        have hidx : (j : Int) = specNchars label + ((j - (cString label).length : Nat) : Int) := by
          omega
        have hlt : j - (cString label).length < (text.take (specNcopy label text).toNat).length := by
          omega
        have := hin3 (j - (cString label).length) hlt
        rw [← hidx] at this
        rw [this, List.getElem?_append_right (by omega),
          List.getElem?_take_of_lt (by omega)]
  · have hw := writeCell_of_range 1024 freshArray 0 0 (by decide) (by decide)
    obtain ⟨k, hk, hk1, hk2, -, -⟩ := strlenLoop_spec 1024
      (fun j => if j = 0 then some 0 else freshArray j) 0 (by decide) (by simp) 1024 0
      (by omega) (by omega) (fun j hj1 hj2 => absurd hj2 (by omega)) (by omega)
    have hk0 : k = 0 := by omega
    subst hk0
    have hs : strlen 1024 (fun j => if j = 0 then some 0 else freshArray j) = some 0 := hk
    refine ⟨⟨fun j => if j = 0 then some 0 else freshArray j, none, none, 0⟩, ?_, ?_, rfl, ?_⟩
    · simp only [DrawableSymbol.update, hw, Option.some_bind, hs]
      rfl
    · simp
    · intro j
      by_cases hj : j = 0 <;> simp [hj, freshArray]

set_option maxRecDepth 200000 in
/-- C23 at two inputs: the label `hi` with the text `!"` (nothing replaced, NUL
at index 4), and a label of 1000 characters with a text of 50 (23 characters
copied, `"..."` stored at `1020..1022`, NUL at 1023). -/
theorem c23_label_buffer_in_bounds_witness :
    (∃ r, DrawableSymbol.update [104, 105] (FieldValue.text [33, 34]) = some r
        ∧ r.nchars = some 2 ∧ r.ncopy = some 2 ∧ r.buf 4 = some 0
        ∧ r.buf 0 = some 104 ∧ r.buf 3 = some 34)
      ∧ (∃ r, DrawableSymbol.update (List.replicate 1000 65)
            (FieldValue.text (List.replicate 50 66)) = some r
        ∧ r.nchars = some 1000 ∧ r.ncopy = some 23
        ∧ r.buf 1020 = some 46 ∧ r.buf 1022 = some 46 ∧ r.buf 1023 = some 0) := by
  constructor
  · obtain ⟨r, h1, h2, h3, -, h5, -, -, h8⟩ :=
      (c23_label_buffer_in_bounds [104, 105] [33, 34]).1
    have e : specNchars [104, 105] + specNcopy [104, 105] [33, 34] = 4 := by decide
    rw [e] at h5
    exact ⟨r, h1, h2.trans (by decide), h3.trans (by decide), h5.2.2,
      (h8 0 (by decide)).trans (by decide), (h8 3 (by decide)).trans (by decide)⟩
  · obtain ⟨r, h1, h2, h3, -, -, -, h7, -⟩ :=
      (c23_label_buffer_in_bounds (List.replicate 1000 65) (List.replicate 50 66)).1
    have e : specNchars (List.replicate 1000 65)
        + specNcopy (List.replicate 1000 65) (List.replicate 50 66) = 1023 := by decide
    exact ⟨r, h1, h2.trans (by decide), h3.trans (by decide), (h7 e).1, (h7 e).2.2.1,
      (h7 e).2.2.2⟩

end ScalarObject
